import Mathlib

/-! Verification development for the MantisDB SQL lexer
    (src/cgo/sql_parser.c together with sql_parser.h).

    The lexer is embedded shallowly: the input buffer is a `List Char`, the
    mutable lexer state is the `Lexer` structure below, and each C function
    becomes a Lean function on that state.  Loops are written as fuel-indexed
    recursions where the fuel passed by the wrapper (`input_len - pos`, or the
    size of the binary-search interval) bounds the number of iterations, since
    every iteration strictly advances the cursor (or shrinks the interval);
    when the fuel runs out the cursor is already past the loop guard, so the
    fuel-zero branch returns exactly what the C loop exit returns. -/

namespace MantisDB

/-- Token kinds, transcribed in order from the TokenType enum of sql_parser.h.
The final four constructors are names that the keyword table of sql_parser.c
uses although the header does not declare them. -/
inductive TokenType where
  | TOKEN_EOF
  | TOKEN_ERROR
  | TOKEN_ICONST
  | TOKEN_FCONST
  | TOKEN_SCONST
  | TOKEN_BCONST
  | TOKEN_XCONST
  | TOKEN_PARAM
  | TOKEN_IDENT
  | TOKEN_UIDENT
  | TOKEN_TYPECAST
  | TOKEN_DOT
  | TOKEN_COMMA
  | TOKEN_SEMICOLON
  | TOKEN_COLON
  | TOKEN_PLUS
  | TOKEN_MINUS
  | TOKEN_MULTIPLY
  | TOKEN_DIVIDE
  | TOKEN_MODULO
  | TOKEN_POWER
  | TOKEN_LT
  | TOKEN_LE
  | TOKEN_GT
  | TOKEN_GE
  | TOKEN_EQ
  | TOKEN_NE
  | TOKEN_CONCAT
  | TOKEN_LSHIFT
  | TOKEN_RSHIFT
  | TOKEN_BITAND
  | TOKEN_BITOR
  | TOKEN_BITXOR
  | TOKEN_BITNOT
  | TOKEN_REGEX_MATCH
  | TOKEN_REGEX_IMATCH
  | TOKEN_REGEX_NMATCH
  | TOKEN_REGEX_INMATCH
  | TOKEN_JSON_EXTRACT
  | TOKEN_JSON_EXTRACT_TEXT
  | TOKEN_JSON_PATH
  | TOKEN_JSON_PATH_TEXT
  | TOKEN_LPAREN
  | TOKEN_RPAREN
  | TOKEN_LBRACKET
  | TOKEN_RBRACKET
  | TOKEN_LBRACE
  | TOKEN_RBRACE
  | TOKEN_SELECT
  | TOKEN_FROM
  | TOKEN_WHERE
  | TOKEN_INSERT
  | TOKEN_UPDATE
  | TOKEN_DELETE
  | TOKEN_CREATE
  | TOKEN_DROP
  | TOKEN_ALTER
  | TOKEN_TABLE
  | TOKEN_INDEX
  | TOKEN_VIEW
  | TOKEN_FUNCTION
  | TOKEN_PROCEDURE
  | TOKEN_TRIGGER
  | TOKEN_SCHEMA
  | TOKEN_DATABASE
  | TOKEN_WITH
  | TOKEN_RECURSIVE
  | TOKEN_AS
  | TOKEN_DISTINCT
  | TOKEN_ALL
  | TOKEN_ANY
  | TOKEN_SOME
  | TOKEN_EXISTS
  | TOKEN_IN
  | TOKEN_BETWEEN
  | TOKEN_LIKE
  | TOKEN_ILIKE
  | TOKEN_SIMILAR
  | TOKEN_IS
  | TOKEN_NULL_P
  | TOKEN_TRUE_P
  | TOKEN_FALSE_P
  | TOKEN_AND
  | TOKEN_OR
  | TOKEN_NOT
  | TOKEN_CASE
  | TOKEN_WHEN
  | TOKEN_THEN
  | TOKEN_ELSE
  | TOKEN_END_P
  | TOKEN_IF_P
  | TOKEN_JOIN
  | TOKEN_INNER_P
  | TOKEN_LEFT
  | TOKEN_RIGHT
  | TOKEN_FULL
  | TOKEN_OUTER_P
  | TOKEN_CROSS
  | TOKEN_NATURAL
  | TOKEN_ON
  | TOKEN_USING
  | TOKEN_GROUP_P
  | TOKEN_BY
  | TOKEN_HAVING
  | TOKEN_ORDER
  | TOKEN_ASC
  | TOKEN_DESC
  | TOKEN_LIMIT
  | TOKEN_OFFSET
  | TOKEN_UNION
  | TOKEN_INTERSECT
  | TOKEN_EXCEPT
  | TOKEN_WINDOW
  | TOKEN_PARTITION
  | TOKEN_OVER
  | TOKEN_RANGE
  | TOKEN_ROWS
  | TOKEN_UNBOUNDED
  | TOKEN_PRECEDING
  | TOKEN_FOLLOWING
  | TOKEN_CURRENT_P
  | TOKEN_ROW
  | TOKEN_CAST
  | TOKEN_EXTRACT
  | TOKEN_OVERLAY
  | TOKEN_POSITION
  | TOKEN_SUBSTRING
  | TOKEN_TRIM
  | TOKEN_LEADING
  | TOKEN_TRAILING
  | TOKEN_BOTH
  | TOKEN_COLLATE
  | TOKEN_CONSTRAINT
  | TOKEN_DEFAULT
  | TOKEN_CHECK
  | TOKEN_PRIMARY
  | TOKEN_KEY
  | TOKEN_UNIQUE
  | TOKEN_FOREIGN
  | TOKEN_REFERENCES
  | TOKEN_MATCH
  | TOKEN_PARTIAL
  | TOKEN_SIMPLE
  | TOKEN_FULL_P
  | TOKEN_CASCADE
  | TOKEN_RESTRICT
  | TOKEN_SET
  | TOKEN_ACTION
  | TOKEN_NO
  | TOKEN_DEFERRABLE
  | TOKEN_INITIALLY
  | TOKEN_DEFERRED
  | TOKEN_IMMEDIATE
  | TOKEN_TEMPORARY
  | TOKEN_TEMP
  | TOKEN_UNLOGGED
  | TOKEN_LOGGED
  | TOKEN_GLOBAL
  | TOKEN_LOCAL
  | TOKEN_PRESERVE
  | TOKEN_COMMIT
  | TOKEN_ROLLBACK
  | TOKEN_WORK
  | TOKEN_TRANSACTION
  | TOKEN_BEGIN_P
  | TOKEN_START
  | TOKEN_SAVEPOINT
  | TOKEN_RELEASE
  | TOKEN_ISOLATION
  | TOKEN_LEVEL
  | TOKEN_READ
  | TOKEN_WRITE
  | TOKEN_ONLY
  | TOKEN_SERIALIZABLE
  | TOKEN_REPEATABLE
  | TOKEN_COMMITTED
  | TOKEN_UNCOMMITTED
  | TOKEN_SNAPSHOT
  | TOKEN_EXPLAIN
  | TOKEN_ANALYZE
  | TOKEN_VERBOSE
  | TOKEN_COSTS
  | TOKEN_SETTINGS
  | TOKEN_BUFFERS
  | TOKEN_TIMING
  | TOKEN_SUMMARY
  | TOKEN_FORMAT
  | TOKEN_GRANT
  | TOKEN_REVOKE
  | TOKEN_ROLE
  | TOKEN_USER
  | TOKEN_PRIVILEGE
  | TOKEN_PRIVILEGES
  | TOKEN_PUBLIC
  | TOKEN_USAGE
  | TOKEN_EXECUTE
  | TOKEN_CONNECT
  | TOKEN_TEMPORARY_P
  | TOKEN_TRUNCATE
  | TOKEN_VACUUM
  | TOKEN_ANALYZE_P
  | TOKEN_REINDEX
  | TOKEN_CLUSTER
  | TOKEN_COPY
  | TOKEN_STDIN
  | TOKEN_STDOUT
  | TOKEN_DELIMITER
  | TOKEN_CSV
  | TOKEN_HEADER
  | TOKEN_QUOTE
  | TOKEN_ESCAPE
  | TOKEN_FORCE
  | TOKEN_NULL_PRINT
  | TOKEN_ENCODING
  | TOKEN_BOOLEAN
  | TOKEN_CHAR_P
  | TOKEN_CHARACTER
  | TOKEN_VARCHAR
  | TOKEN_TEXT
  | TOKEN_NAME
  | TOKEN_BYTEA
  | TOKEN_SMALLINT
  | TOKEN_INTEGER
  | TOKEN_BIGINT
  | TOKEN_REAL
  | TOKEN_DOUBLE_P
  | TOKEN_PRECISION
  | TOKEN_DECIMAL_P
  | TOKEN_NUMERIC
  | TOKEN_MONEY
  | TOKEN_DATE
  | TOKEN_TIME
  | TOKEN_TIMESTAMP
  | TOKEN_TIMESTAMPTZ
  | TOKEN_INTERVAL
  | TOKEN_TIMETZ
  | TOKEN_BIT
  | TOKEN_VARBIT
  | TOKEN_INET
  | TOKEN_CIDR
  | TOKEN_MACADDR
  | TOKEN_MACADDR8
  | TOKEN_UUID
  | TOKEN_JSON
  | TOKEN_JSONB
  | TOKEN_XML
  | TOKEN_POINT
  | TOKEN_LINE
  | TOKEN_LSEG
  | TOKEN_BOX
  | TOKEN_PATH
  | TOKEN_POLYGON
  | TOKEN_CIRCLE
  | TOKEN_ARRAY
  | TOKEN_INT2VECTOR
  | TOKEN_OIDVECTOR
  | TOKEN_TSVECTOR
  | TOKEN_TSQUERY
  | TOKEN_REGPROC
  | TOKEN_REGPROCEDURE
  | TOKEN_REGOPER
  | TOKEN_REGOPERATOR
  | TOKEN_REGCLASS
  | TOKEN_REGTYPE
  | TOKEN_REGROLE
  | TOKEN_REGNAMESPACE
  | TOKEN_REGCONFIG
  | TOKEN_REGDICTIONARY
  | TOKEN_MAX
  | TOKEN_COALESCE_EXPR
  | TOKEN_COLUMN_REF
  | TOKEN_FOR
  | TOKEN_INTO_CLAUSE
deriving DecidableEq, Repr

open TokenType

/-- ASCII NUL, the sentinel byte the cursor returns at end of input. -/
def nullChar : Char := Char.ofNat 0

/-- Single-quote character (string delimiter). -/
def squote : Char := Char.ofNat 39

/-- Double-quote character (string delimiter). -/
def dquote : Char := Char.ofNat 34

/-- Backslash character (string escape lead-in). -/
def bslash : Char := Char.ofNat 92

/-- Models tolower from ctype.h on the ASCII range (the only bytes involved). -/
def tolower (c : Char) : Char :=
  if 'A' ≤ c ∧ c ≤ 'Z' then Char.ofNat (c.toNat + 32) else c

/-- Models strncasecmp from libc as lookup_keyword uses it: compare at most n
characters case-insensitively; the end of a list plays the role of the C string
terminator, a zero byte that compares below every letter or digit. -/
def strncasecmp : List Char → List Char → Nat → Int
  | _, _, 0 => 0
  | [], [], _ + 1 => 0
  | [], c2 :: _, _ + 1 => 0 - ((tolower c2).toNat : Int)
  | c1 :: _, [], _ + 1 => ((tolower c1).toNat : Int)
  | c1 :: s1, c2 :: s2, n + 1 =>
    if tolower c1 = tolower c2 then strncasecmp s1 s2 n
    else ((tolower c1).toNat : Int) - ((tolower c2).toNat : Int)

/-- Keyword lookup table of sql_parser.c (sorted for binary search). -/
def keywords : List (List Char × TokenType) := [
  ("action".toList, TOKEN_ACTION),
  ("all".toList, TOKEN_ALL),
  ("alter".toList, TOKEN_ALTER),
  ("analyze".toList, TOKEN_ANALYZE_P),
  ("and".toList, TOKEN_AND),
  ("any".toList, TOKEN_ANY),
  ("array".toList, TOKEN_ARRAY),
  ("as".toList, TOKEN_AS),
  ("asc".toList, TOKEN_ASC),
  ("begin".toList, TOKEN_BEGIN_P),
  ("between".toList, TOKEN_BETWEEN),
  ("bigint".toList, TOKEN_BIGINT),
  ("bit".toList, TOKEN_BIT),
  ("boolean".toList, TOKEN_BOOLEAN),
  ("both".toList, TOKEN_BOTH),
  ("by".toList, TOKEN_BY),
  ("cascade".toList, TOKEN_CASCADE),
  ("case".toList, TOKEN_CASE),
  ("cast".toList, TOKEN_CAST),
  ("char".toList, TOKEN_CHAR_P),
  ("character".toList, TOKEN_CHARACTER),
  ("check".toList, TOKEN_CHECK),
  ("cluster".toList, TOKEN_CLUSTER),
  ("coalesce".toList, TOKEN_COALESCE_EXPR),
  ("collate".toList, TOKEN_COLLATE),
  ("column".toList, TOKEN_COLUMN_REF),
  ("commit".toList, TOKEN_COMMIT),
  ("committed".toList, TOKEN_COMMITTED),
  ("constraint".toList, TOKEN_CONSTRAINT),
  ("copy".toList, TOKEN_COPY),
  ("create".toList, TOKEN_CREATE),
  ("cross".toList, TOKEN_CROSS),
  ("current".toList, TOKEN_CURRENT_P),
  ("database".toList, TOKEN_DATABASE),
  ("date".toList, TOKEN_DATE),
  ("decimal".toList, TOKEN_DECIMAL_P),
  ("default".toList, TOKEN_DEFAULT),
  ("deferrable".toList, TOKEN_DEFERRABLE),
  ("deferred".toList, TOKEN_DEFERRED),
  ("delete".toList, TOKEN_DELETE),
  ("desc".toList, TOKEN_DESC),
  ("distinct".toList, TOKEN_DISTINCT),
  ("double".toList, TOKEN_DOUBLE_P),
  ("drop".toList, TOKEN_DROP),
  ("else".toList, TOKEN_ELSE),
  ("end".toList, TOKEN_END_P),
  ("except".toList, TOKEN_EXCEPT),
  ("execute".toList, TOKEN_EXECUTE),
  ("exists".toList, TOKEN_EXISTS),
  ("explain".toList, TOKEN_EXPLAIN),
  ("extract".toList, TOKEN_EXTRACT),
  ("false".toList, TOKEN_FALSE_P),
  ("following".toList, TOKEN_FOLLOWING),
  ("for".toList, TOKEN_FOR),
  ("foreign".toList, TOKEN_FOREIGN),
  ("from".toList, TOKEN_FROM),
  ("full".toList, TOKEN_FULL_P),
  ("function".toList, TOKEN_FUNCTION),
  ("grant".toList, TOKEN_GRANT),
  ("group".toList, TOKEN_GROUP_P),
  ("having".toList, TOKEN_HAVING),
  ("if".toList, TOKEN_IF_P),
  ("ilike".toList, TOKEN_ILIKE),
  ("immediate".toList, TOKEN_IMMEDIATE),
  ("in".toList, TOKEN_IN),
  ("index".toList, TOKEN_INDEX),
  ("initially".toList, TOKEN_INITIALLY),
  ("inner".toList, TOKEN_INNER_P),
  ("insert".toList, TOKEN_INSERT),
  ("integer".toList, TOKEN_INTEGER),
  ("intersect".toList, TOKEN_INTERSECT),
  ("interval".toList, TOKEN_INTERVAL),
  ("into".toList, TOKEN_INTO_CLAUSE),
  ("is".toList, TOKEN_IS),
  ("join".toList, TOKEN_JOIN),
  ("json".toList, TOKEN_JSON),
  ("jsonb".toList, TOKEN_JSONB),
  ("key".toList, TOKEN_KEY),
  ("leading".toList, TOKEN_LEADING),
  ("left".toList, TOKEN_LEFT),
  ("level".toList, TOKEN_LEVEL),
  ("like".toList, TOKEN_LIKE),
  ("limit".toList, TOKEN_LIMIT),
  ("local".toList, TOKEN_LOCAL),
  ("match".toList, TOKEN_MATCH),
  ("natural".toList, TOKEN_NATURAL),
  ("no".toList, TOKEN_NO),
  ("not".toList, TOKEN_NOT),
  ("null".toList, TOKEN_NULL_P),
  ("numeric".toList, TOKEN_NUMERIC),
  ("offset".toList, TOKEN_OFFSET),
  ("on".toList, TOKEN_ON),
  ("only".toList, TOKEN_ONLY),
  ("or".toList, TOKEN_OR),
  ("order".toList, TOKEN_ORDER),
  ("outer".toList, TOKEN_OUTER_P),
  ("over".toList, TOKEN_OVER),
  ("overlay".toList, TOKEN_OVERLAY),
  ("partial".toList, TOKEN_PARTIAL),
  ("partition".toList, TOKEN_PARTITION),
  ("position".toList, TOKEN_POSITION),
  ("preceding".toList, TOKEN_PRECEDING),
  ("precision".toList, TOKEN_PRECISION),
  ("primary".toList, TOKEN_PRIMARY),
  ("procedure".toList, TOKEN_PROCEDURE),
  ("public".toList, TOKEN_PUBLIC),
  ("range".toList, TOKEN_RANGE),
  ("read".toList, TOKEN_READ),
  ("real".toList, TOKEN_REAL),
  ("recursive".toList, TOKEN_RECURSIVE),
  ("references".toList, TOKEN_REFERENCES),
  ("reindex".toList, TOKEN_REINDEX),
  ("restrict".toList, TOKEN_RESTRICT),
  ("revoke".toList, TOKEN_REVOKE),
  ("right".toList, TOKEN_RIGHT),
  ("role".toList, TOKEN_ROLE),
  ("rollback".toList, TOKEN_ROLLBACK),
  ("row".toList, TOKEN_ROW),
  ("rows".toList, TOKEN_ROWS),
  ("schema".toList, TOKEN_SCHEMA),
  ("select".toList, TOKEN_SELECT),
  ("serializable".toList, TOKEN_SERIALIZABLE),
  ("set".toList, TOKEN_SET),
  ("similar".toList, TOKEN_SIMILAR),
  ("smallint".toList, TOKEN_SMALLINT),
  ("some".toList, TOKEN_SOME),
  ("start".toList, TOKEN_START),
  ("substring".toList, TOKEN_SUBSTRING),
  ("table".toList, TOKEN_TABLE),
  ("temp".toList, TOKEN_TEMP),
  ("temporary".toList, TOKEN_TEMPORARY),
  ("text".toList, TOKEN_TEXT),
  ("then".toList, TOKEN_THEN),
  ("time".toList, TOKEN_TIME),
  ("timestamp".toList, TOKEN_TIMESTAMP),
  ("trailing".toList, TOKEN_TRAILING),
  ("transaction".toList, TOKEN_TRANSACTION),
  ("trigger".toList, TOKEN_TRIGGER),
  ("trim".toList, TOKEN_TRIM),
  ("true".toList, TOKEN_TRUE_P),
  ("truncate".toList, TOKEN_TRUNCATE),
  ("unbounded".toList, TOKEN_UNBOUNDED),
  ("uncommitted".toList, TOKEN_UNCOMMITTED),
  ("union".toList, TOKEN_UNION),
  ("unique".toList, TOKEN_UNIQUE),
  ("update".toList, TOKEN_UPDATE),
  ("user".toList, TOKEN_USER),
  ("using".toList, TOKEN_USING),
  ("vacuum".toList, TOKEN_VACUUM),
  ("varchar".toList, TOKEN_VARCHAR),
  ("view".toList, TOKEN_VIEW),
  ("when".toList, TOKEN_WHEN),
  ("where".toList, TOKEN_WHERE),
  ("window".toList, TOKEN_WINDOW),
  ("with".toList, TOKEN_WITH),
  ("work".toList, TOKEN_WORK),
  ("write".toList, TOKEN_WRITE)
]

/-- Number of keyword entries (sizeof(keywords) / sizeof(KeywordEntry)). -/
def num_keywords : Int := (keywords.length : Int)

/-- Binary-search loop of lookup_keyword.  The fuel bounds the iteration count:
the interval shrinks at every step, so an initial fuel of keywords.length is
enough, and fuel zero can only be reached once the interval is empty, where the
C loop also exits with TOKEN_IDENT. -/
def lookup_keyword_loop (str : List Char) (len : Nat) : Nat → Int → Int → TokenType
  | 0, _, _ => TOKEN_IDENT
  | fuel + 1, left, right =>
    if left ≤ right then
      let mid := (left + right) / 2
      let entry := keywords.getD mid.toNat ([], TOKEN_IDENT)
      let cmp := strncasecmp str entry.1 len
      if cmp = 0 ∧ entry.1.length = len then entry.2
      else if cmp < 0 then lookup_keyword_loop str len fuel left (mid - 1)
      else lookup_keyword_loop str len fuel (mid + 1) right
    else TOKEN_IDENT

/-- Binary search for keywords (lookup_keyword in sql_parser.c). -/
def lookup_keyword (str : List Char) (len : Nat) : TokenType :=
  lookup_keyword_loop str len keywords.length 0 (num_keywords - 1)

/-- Character classification is_alpha from sql_parser.c. -/
def is_alpha (c : Char) : Bool :=
  (decide ('a' ≤ c) && decide (c ≤ 'z')) || (decide ('A' ≤ c) && decide (c ≤ 'Z'))
    || decide (c = '_')

/-- Character classification is_digit from sql_parser.c. -/
def is_digit (c : Char) : Bool := decide ('0' ≤ c) && decide (c ≤ '9')

/-- Character classification is_alnum from sql_parser.c. -/
def is_alnum (c : Char) : Bool := is_alpha c || is_digit c

/-- Character classification is_space from sql_parser.c (space, tab, newline,
carriage return, form feed). -/
def is_space (c : Char) : Bool :=
  decide (c = ' ') || decide (c = '\t') || decide (c = '\n') || decide (c = '\r')
    || decide (c = Char.ofNat 12)

/-- Models memcpy(dst, input + start, len): the len-byte slice of input that
begins at offset start. -/
def sliceList (xs : List Char) (start len : Nat) : List Char := (xs.drop start).take len

/-- Source location from sql_parser.h: 1-based line and column, 0-based byte
offset. -/
structure Location where
  line : Nat
  column : Nat
  offset : Nat
deriving DecidableEq, Repr

/-- Value union of Token in sql_parser.h.  ival and bval are as declared; the
double fval is modelled as an exact rational (see strtodQ). -/
inductive TokenData where
  | ival (i : Int)
  | fval (q : ℚ)
  | bval (b : Bool)
deriving DecidableEq, Repr

/-- Token structure from sql_parser.h.  value is a heap string in C, so an
optional character list here, none modelling a NULL pointer. -/
structure Token where
  type : TokenType
  value : Option (List Char)
  length : Nat
  location : Location
  data : TokenData
deriving DecidableEq, Repr

/-- Token contents after the palloc0 zeroing in lexer_create: kind 0 is
TOKEN_EOF, a zeroed pointer is NULL, and the zeroed union reads as ival 0. -/
def zeroToken : Token :=
  { type := TOKEN_EOF, value := none, length := 0,
    location := { line := 0, column := 0, offset := 0 }, data := TokenData.ival 0 }

/-- Lexer state from sql_parser.h. -/
structure Lexer where
  input : List Char
  input_len : Nat
  pos : Nat
  line : Nat
  column : Nat
  current_token : Token
  has_current : Bool
  error_msg : Option String
deriving DecidableEq, Repr

/-- lexer_create from sql_parser.c.  Callers pass strlen(input), so input_len
is the length of the buffer. -/
def lexer_create (input : List Char) : Lexer :=
  { input := input, input_len := input.length, pos := 0, line := 1, column := 1,
    current_token := zeroToken, has_current := false, error_msg := none }

/-- lexer_set_error from sql_parser.c. -/
def lexer_set_error (l : Lexer) (msg : String) : Lexer := { l with error_msg := some msg }

/-- Models the C array read lexer->input[i]. -/
def charAt (l : Lexer) (i : Nat) : Char := l.input.getD i nullChar

/-- lexer_peek from sql_parser.c. -/
def lexer_peek (l : Lexer) : Char :=
  if l.pos ≥ l.input_len then nullChar else charAt l l.pos

/-- lexer_advance from sql_parser.c. -/
def lexer_advance (l : Lexer) : Char × Lexer :=
  if l.pos ≥ l.input_len then (nullChar, l)
  else
    let c := charAt l l.pos
    if c = '\n' then (c, { l with pos := l.pos + 1, line := l.line + 1, column := 1 })
    else (c, { l with pos := l.pos + 1, column := l.column + 1 })

/-- Loop body of lexer_skip_whitespace.  Every iteration advances pos by one,
so input_len - pos fuel bounds the iteration count, and fuel zero is reached
only with pos past input_len, where the loop guard is false anyway. -/
def lexer_skip_whitespace_loop : Nat → Lexer → Lexer
  | 0, l => l
  | fuel + 1, l =>
    if l.pos < l.input_len ∧ is_space (lexer_peek l) then
      lexer_skip_whitespace_loop fuel (lexer_advance l).2
    else l

/-- lexer_skip_whitespace from sql_parser.c. -/
def lexer_skip_whitespace (l : Lexer) : Lexer :=
  lexer_skip_whitespace_loop (l.input_len - l.pos) l

/-- Body of the line-comment loop in lexer_skip_comment. -/
def skip_line_comment_loop : Nat → Lexer → Lexer
  | 0, l => l
  | fuel + 1, l =>
    if l.pos < l.input_len ∧ lexer_peek l ≠ '\n' then
      skip_line_comment_loop fuel (lexer_advance l).2
    else l

/-- Body of the block-comment loop in lexer_skip_comment.  Note the guard
pos + 1 < input_len, which can leave the final input byte unconsumed. -/
def skip_block_comment_loop : Nat → Lexer → Lexer
  | 0, l => l
  | fuel + 1, l =>
    if l.pos + 1 < l.input_len then
      if lexer_peek l = '*' ∧ charAt l (l.pos + 1) = '/' then
        (lexer_advance (lexer_advance l).2).2
      else skip_block_comment_loop fuel (lexer_advance l).2
    else l

/-- lexer_skip_comment from sql_parser.c. -/
def lexer_skip_comment (l : Lexer) : Lexer :=
  let c := lexer_peek l
  if c = '-' ∧ l.pos + 1 < l.input_len ∧ charAt l (l.pos + 1) = '-' then
    skip_line_comment_loop (l.input_len - l.pos) (lexer_advance (lexer_advance l).2).2
  else if c = '/' ∧ l.pos + 1 < l.input_len ∧ charAt l (l.pos + 1) = '*' then
    skip_block_comment_loop (l.input_len - l.pos) (lexer_advance (lexer_advance l).2).2
  else l

/-- Body of the scanning loop in lexer_scan_string; quote and start are the
locals of the C function.  Every iteration advances pos by at least one, so
input_len - pos fuel bounds the iteration count; fuel zero is reached only
once pos has passed input_len, which is exactly the loop exit that raises the
unterminated-string error. -/
def lexer_scan_string_loop (quote : Char) (start : Nat) : Nat → Lexer → Lexer × Bool
  | 0, l => (lexer_set_error l "unterminated string literal", false)
  | fuel + 1, l =>
    if l.pos < l.input_len then
      let c := lexer_peek l
      if c = quote then
        if l.pos + 1 < l.input_len ∧ charAt l (l.pos + 1) = quote then
          lexer_scan_string_loop quote start fuel (lexer_advance (lexer_advance l).2).2
        else
          let len := l.pos - start
          let value := sliceList l.input start len
          let l' := { l with current_token :=
            { l.current_token with value := some value, length := len } }
          ((lexer_advance l').2, true)
      else if c = bslash then
        let l1 := (lexer_advance l).2
        let l2 := if l1.pos < l1.input_len then (lexer_advance l1).2 else l1
        lexer_scan_string_loop quote start fuel l2
      else lexer_scan_string_loop quote start fuel (lexer_advance l).2
    else (lexer_set_error l "unterminated string literal", false)

/-- lexer_scan_string from sql_parser.c (the Token out-parameter is the
current_token field of the state). -/
def lexer_scan_string (l : Lexer) : Lexer × Bool :=
  let (quote, l1) := lexer_advance l
  lexer_scan_string_loop quote l1.pos (l1.input_len - l1.pos) l1

/-- Body of the three digit-run loops in lexer_scan_number and of the one in
the parameter-marker branch of lexer_scan_operator. -/
def skip_digits_loop : Nat → Lexer → Lexer
  | 0, l => l
  | fuel + 1, l =>
    if l.pos < l.input_len ∧ is_digit (lexer_peek l) then
      skip_digits_loop fuel (lexer_advance l).2
    else l

/-- The while-digit loop with the fuel supplied at its call sites. -/
def skip_digits (l : Lexer) : Lexer := skip_digits_loop (l.input_len - l.pos) l

/-- Decimal digit-run accumulator underlying the strtoll and strtod models. -/
def parseDecDigits : List Char → Nat → Nat
  | [], acc => acc
  | c :: cs, acc => if is_digit c then parseDecDigits cs (acc * 10 + (c.toNat - 48)) else acc

/-- Models strtoll(s, NULL, 10) from libc on the scanner's slices, which always
begin with a digit: the value of the maximal leading decimal digit run. -/
def strtoll (s : List Char) : Int := (parseDecDigits s 0 : Int)

/-- Models strtod(s, NULL) from libc on the number slices the scanner produces,
as exact decimal parsing into a rational (the rounding of the decimal value to
a binary double is not modelled): a digit run, an optional fraction after a
dot, and an optional decimal exponent after e or E with an optional sign. -/
def strtodQ (s : List Char) : ℚ :=
  let ip := s.takeWhile is_digit
  let r1 := s.dropWhile is_digit
  let fp := if r1.headD nullChar = '.' then r1.tail.takeWhile is_digit else []
  let r2 := if r1.headD nullChar = '.' then r1.tail.dropWhile is_digit else r1
  let eTail := if r2.headD nullChar = 'e' ∨ r2.headD nullChar = 'E' then r2.tail else []
  let esign : Int := if eTail.headD nullChar = '-' then -1 else 1
  let edigs :=
    if eTail.headD nullChar = '-' ∨ eTail.headD nullChar = '+' then
      eTail.tail.takeWhile is_digit
    else eTail.takeWhile is_digit
  let mant : ℚ := (parseDecDigits ip 0 : ℚ) + (parseDecDigits fp 0 : ℚ) / ((10 : ℚ) ^ fp.length)
  mant * (10 : ℚ) ^ (esign * (parseDecDigits edigs 0 : Int))

/-- Token assembly at the end of lexer_scan_number. -/
def lexer_scan_number_finish (l : Lexer) (start : Nat) (hasDot hasExp : Bool) :
    Lexer × Bool :=
  let len := l.pos - start
  let value := sliceList l.input start len
  if hasDot || hasExp then
    ({ l with current_token :=
        { l.current_token with
            value := some value, length := len,
            type := TOKEN_FCONST, data := TokenData.fval (strtodQ value) } }, true)
  else
    ({ l with current_token :=
        { l.current_token with
            value := some value, length := len,
            type := TOKEN_ICONST, data := TokenData.ival (strtoll value) } }, true)

/-- Exponent part of lexer_scan_number, entered with has_exp just set to true:
consume the marker, an optional sign, then require and consume a digit run, or
fail with the invalid-number-format error. -/
def lexer_scan_number_exp (l2 : Lexer) (start : Nat) (hasDot : Bool) : Lexer × Bool :=
  let l3 := (lexer_advance l2).2
  let l4 :=
    if l3.pos < l3.input_len ∧ (lexer_peek l3 = '+' ∨ lexer_peek l3 = '-') then
      (lexer_advance l3).2
    else l3
  if l4.pos ≥ l4.input_len ∨ is_digit (lexer_peek l4) = false then
    (lexer_set_error l4 "invalid number format", false)
  else lexer_scan_number_finish (skip_digits l4) start hasDot true

/-- lexer_scan_number from sql_parser.c. -/
def lexer_scan_number (l0 : Lexer) : Lexer × Bool :=
  let start := l0.pos
  let l1 := skip_digits l0
  let hasDot : Bool :=
    decide (l1.pos < l1.input_len) && decide (lexer_peek l1 = '.') &&
      decide (l1.pos + 1 < l1.input_len) && is_digit (charAt l1 (l1.pos + 1))
  let l2 := if hasDot then skip_digits (lexer_advance l1).2 else l1
  let hasExp : Bool :=
    decide (l2.pos < l2.input_len) &&
      (decide (lexer_peek l2 = 'e') || decide (lexer_peek l2 = 'E'))
  if hasExp then lexer_scan_number_exp l2 start hasDot
  else lexer_scan_number_finish l2 start hasDot false

/-- Body of the subsequent-characters loop in lexer_scan_identifier. -/
def scan_ident_loop : Nat → Lexer → Lexer
  | 0, l => l
  | fuel + 1, l =>
    if l.pos < l.input_len ∧ is_alnum (lexer_peek l) then
      scan_ident_loop fuel (lexer_advance l).2
    else l

/-- lexer_scan_identifier from sql_parser.c. -/
def lexer_scan_identifier (l : Lexer) : Lexer × Bool :=
  let start := l.pos
  if is_alpha (lexer_peek l) = false then
    (lexer_set_error l "invalid identifier", false)
  else
    let l1 := (lexer_advance l).2
    let l2 := scan_ident_loop (l1.input_len - l1.pos) l1
    let len := l2.pos - start
    let value := sliceList l2.input start len
    ({ l2 with current_token :=
        { l2.current_token with
            value := some value, length := len,
            type := lookup_keyword value len } }, true)

/-- Left-brace character. -/
def lbraceChar : Char := Char.ofNat 123

/-- Right-brace character. -/
def rbraceChar : Char := Char.ofNat 125

/-- Branch shape of lexer_scan_operator writing a one-character token: the C
code has already written value[0] := c and advanced once; l is that advanced
state. -/
def op_tok1 (l : Lexer) (c : Char) (ty : TokenType) : Lexer × Bool :=
  ({ l with current_token :=
      { l.current_token with value := some [c], length := 1, type := ty } }, true)

/-- Branch shape of lexer_scan_operator writing a two-character token: patch
value[1] := x, set length 2 and advance once more. -/
def op_tok2 (l : Lexer) (c : Char) (ty : TokenType) (x : Char) : Lexer × Bool :=
  ({ (lexer_advance l).2 with current_token :=
      { l.current_token with value := some [c, x], length := 2, type := ty } }, true)

/-- Branch shape of lexer_scan_operator writing a three-character token: patch
value[1] := x and value[2] := y, set length 3 and advance twice more. -/
def op_tok3 (l : Lexer) (c : Char) (ty : TokenType) (x y : Char) : Lexer × Bool :=
  ({ (lexer_advance (lexer_advance l).2).2 with current_token :=
      { l.current_token with value := some [c, x, y], length := 3, type := ty } }, true)

/-- Parameter-marker branch of lexer_scan_operator, entered with the dollar
sign already consumed: scan the digit run, rebuild the value buffer as a
dollar sign followed by the digits, and parse the integer after the dollar. -/
def op_param (l : Lexer) : Lexer × Bool :=
  let start := l.pos
  let l2 := skip_digits l
  let len := l2.pos - start + 1
  let digits := sliceList l2.input start (len - 1)
  ({ l2 with current_token :=
      { l2.current_token with
          value := some ('$' :: digits), length := len, type := TOKEN_PARAM,
          data := TokenData.ival (strtoll digits) } }, true)

/-- lexer_scan_operator from sql_parser.c. -/
def lexer_scan_operator (l0 : Lexer) : Lexer × Bool :=
  let c := lexer_peek l0
  let next := if l0.pos + 1 < l0.input_len then charAt l0 (l0.pos + 1) else nullChar
  let l := (lexer_advance l0).2
  if c = '(' then op_tok1 l c TOKEN_LPAREN
  else if c = ')' then op_tok1 l c TOKEN_RPAREN
  else if c = '[' then op_tok1 l c TOKEN_LBRACKET
  else if c = ']' then op_tok1 l c TOKEN_RBRACKET
  else if c = lbraceChar then op_tok1 l c TOKEN_LBRACE
  else if c = rbraceChar then op_tok1 l c TOKEN_RBRACE
  else if c = ',' then op_tok1 l c TOKEN_COMMA
  else if c = ';' then op_tok1 l c TOKEN_SEMICOLON
  else if c = '.' then op_tok1 l c TOKEN_DOT
  else if c = '+' then op_tok1 l c TOKEN_PLUS
  else if c = '-' then
    if next = '>' then
      if l.pos + 1 < l.input_len ∧ charAt l (l.pos + 1) = '>' then
        op_tok3 l c TOKEN_JSON_EXTRACT_TEXT '>' '>'
      else op_tok2 l c TOKEN_JSON_EXTRACT '>'
    else op_tok1 l c TOKEN_MINUS
  else if c = '*' then op_tok1 l c TOKEN_MULTIPLY
  else if c = '/' then op_tok1 l c TOKEN_DIVIDE
  else if c = '%' then op_tok1 l c TOKEN_MODULO
  else if c = '^' then op_tok1 l c TOKEN_POWER
  else if c = '<' then
    if next = '=' then op_tok2 l c TOKEN_LE '='
    else if next = '>' then op_tok2 l c TOKEN_NE '>'
    else if next = '<' then op_tok2 l c TOKEN_LSHIFT '<'
    else op_tok1 l c TOKEN_LT
  else if c = '>' then
    if next = '=' then op_tok2 l c TOKEN_GE '='
    else if next = '>' then op_tok2 l c TOKEN_RSHIFT '>'
    else op_tok1 l c TOKEN_GT
  else if c = '=' then op_tok1 l c TOKEN_EQ
  else if c = '!' then
    if next = '=' then op_tok2 l c TOKEN_NE '='
    else if next = '~' then
      if l.pos + 1 < l.input_len ∧ charAt l (l.pos + 1) = '*' then
        op_tok3 l c TOKEN_REGEX_INMATCH '~' '*'
      else op_tok2 l c TOKEN_REGEX_NMATCH '~'
    else (lexer_set_error l "unexpected character \x27!\x27", false)
  else if c = '|' then
    if next = '|' then op_tok2 l c TOKEN_CONCAT '|'
    else op_tok1 l c TOKEN_BITOR
  else if c = '&' then op_tok1 l c TOKEN_BITAND
  else if c = '#' then
    if next = '>' then
      if l.pos + 1 < l.input_len ∧ charAt l (l.pos + 1) = '>' then
        op_tok3 l c TOKEN_JSON_PATH_TEXT '>' '>'
      else op_tok2 l c TOKEN_JSON_PATH '>'
    else op_tok1 l c TOKEN_BITXOR
  else if c = '~' then
    if next = '*' then op_tok2 l c TOKEN_REGEX_IMATCH '*'
    else op_tok1 l c TOKEN_REGEX_MATCH
  else if c = ':' then
    if next = ':' then op_tok2 l c TOKEN_TYPECAST ':'
    else op_tok1 l c TOKEN_COLON
  else if c = '$' then
    if is_digit next then op_param l
    else (lexer_set_error l "invalid parameter marker", false)
  else (lexer_set_error l "unexpected character", false)

/-- Body of the whitespace-and-comment loop at the top of lexer_next_token.
Every iteration that recurses has run lexer_skip_comment on a comment opener,
which consumes at least two bytes, so input_len - pos fuel bounds the
iteration count, and fuel zero is reached only with pos past input_len, where
the C loop guard is false as well. -/
def next_token_skip_loop : Nat → Lexer → Lexer
  | 0, l => l
  | fuel + 1, l =>
    if l.pos < l.input_len then
      let l1 := lexer_skip_whitespace l
      if l1.pos ≥ l1.input_len then l1
      else
        let c := lexer_peek l1
        if (c = '-' ∧ l1.pos + 1 < l1.input_len ∧ charAt l1 (l1.pos + 1) = '-')
            ∨ (c = '/' ∧ l1.pos + 1 < l1.input_len ∧ charAt l1 (l1.pos + 1) = '*') then
          next_token_skip_loop fuel (lexer_skip_comment l1)
        else l1
    else l

/-- First step of lexer_next_token: pfree the previous token value and null
the pointer, when a token is held. -/
def lexer_next_token_free (l : Lexer) : Lexer :=
  if l.has_current ∧ l.current_token.value ≠ none then
    { l with current_token := { l.current_token with value := none } }
  else l

/-- Dispatch step of lexer_next_token on the lookahead class: quote character,
digit, letter or underscore, anything else. -/
def lexer_dispatch (lc : Lexer) : Lexer × Bool :=
  let c := lexer_peek lc
  if c = squote ∨ c = dquote then
    lexer_scan_string { lc with current_token :=
      { lc.current_token with type := TOKEN_SCONST } }
  else if is_digit c then lexer_scan_number lc
  else if is_alpha c then lexer_scan_identifier lc
  else lexer_scan_operator lc

/-- lexer_next_token from sql_parser.c: free the previous token value, run the
whitespace-and-comment loop, record the location, then produce the end-of-input
token or dispatch on the lookahead class. -/
def lexer_next_token (l0 : Lexer) : Lexer × Bool :=
  let la := lexer_next_token_free l0
  let lb := next_token_skip_loop (la.input_len - la.pos) la
  let lc := { lb with current_token :=
      { lb.current_token with
          location := { line := lb.line, column := lb.column, offset := lb.pos } } }
  if lc.pos ≥ lc.input_len then
    ({ lc with
        current_token :=
          { lc.current_token with type := TOKEN_EOF, value := none, length := 0 },
        has_current := true }, true)
  else
    let res := lexer_dispatch lc
    ({ res.1 with has_current := res.2 }, res.2)

/-- lexer_current_token from sql_parser.c; none models the NULL return. -/
def lexer_current_token (l : Lexer) : Option Token :=
  if l.has_current then some l.current_token else none

/-- lexer_error from sql_parser.c. -/
def lexer_error (l : Lexer) : Option String := l.error_msg

/-- Decimal value of a digit string, as the claims state it. -/
def decValue (ds : List Char) : Nat := ds.foldl (fun a c => 10 * a + (c.toNat - 48)) 0

/-- Number grammar, stated on the input suffix as the claim describes it: the
tail after the maximal leading digit run (the integer part). -/
def numAfterInt (s : List Char) : List Char := s.dropWhile is_digit

/-- Number grammar: a fractional part follows the integer part exactly when a
dot comes immediately followed by a digit. -/
def numHasFrac (s : List Char) : Bool :=
  match numAfterInt s with
  | c :: d :: _ => decide (c = '.') && is_digit d
  | _ => false

/-- Number grammar: the tail after the integer part and the optional
fractional part. -/
def numAfterFrac (s : List Char) : List Char :=
  if numHasFrac s then (numAfterInt s).tail.dropWhile is_digit else numAfterInt s

/-- Number grammar: an exponent marker e or E stands at the exponent
position. -/
def numHasExpMarker (s : List Char) : Bool :=
  match numAfterFrac s with
  | c :: _ => decide (c = 'e') || decide (c = 'E')
  | [] => false

/-- The failure condition of the number-scanner claim: an exponent marker is
present with no digit after the marker and the optional sign. -/
def numExpNoDigit (s : List Char) : Bool :=
  match numAfterFrac s with
  | c :: rest =>
    (decide (c = 'e') || decide (c = 'E')) &&
      (match rest with
       | d :: rest2 =>
         if decide (d = '+') || decide (d = '-') then
           match rest2 with
           | e2 :: _ => !is_digit e2
           | [] => true
         else !is_digit d
       | [] => true)
  | [] => false

/-- No closing star-slash pair occurs in the input at or after position j. -/
def NoBlockClose (l : Lexer) (j : Nat) : Prop :=
  ∀ i, j ≤ i → i + 1 < l.input_len → ¬(charAt l i = '*' ∧ charAt l (i + 1) = '/')

/-- Specification bundle for a lexer_scan_operator result relative to the
state l at the operator's first byte: on success the input is untouched, the
token's location survives, its value is the consumed source slice at l.pos,
and its kind is neither the end-of-input nor the string kind. -/
def OpSpec (l : Lexer) (r : Lexer × Bool) : Prop :=
  r.2 = true →
    r.1.input = l.input ∧ r.1.input_len = l.input_len ∧
    r.1.current_token.location = l.current_token.location ∧
    r.1.current_token.value = some (sliceList l.input l.pos r.1.current_token.length) ∧
    r.1.current_token.type ≠ TOKEN_EOF ∧ r.1.current_token.type ≠ TOKEN_SCONST

/-- States that a step only moved the cursor forward: the input, the
materialized token, the success flag and the error message are untouched. -/
def CursorStep (l l' : Lexer) : Prop :=
  l'.input = l.input ∧ l'.input_len = l.input_len ∧
    l'.current_token = l.current_token ∧ l'.has_current = l.has_current ∧
    l'.error_msg = l.error_msg ∧ l.pos ≤ l'.pos

theorem cursorStep_refl (l : Lexer) : CursorStep l l :=
  ⟨rfl, rfl, rfl, rfl, rfl, Nat.le_refl _⟩

theorem cursorStep_trans {a b c : Lexer} (h1 : CursorStep a b) (h2 : CursorStep b c) :
    CursorStep a c := by
  obtain ⟨i1, n1, t1, c1, e1, p1⟩ := h1
  obtain ⟨i2, n2, t2, c2, e2, p2⟩ := h2
  exact ⟨i2.trans i1, n2.trans n1, t2.trans t1, c2.trans c1, e2.trans e1, p1.trans p2⟩

theorem lexer_advance_cursorStep (l : Lexer) : CursorStep l (lexer_advance l).2 := by
  simp only [lexer_advance]
  split
  · exact cursorStep_refl l
  · split
    · exact ⟨rfl, rfl, rfl, rfl, rfl, Nat.le_succ _⟩
    · exact ⟨rfl, rfl, rfl, rfl, rfl, Nat.le_succ _⟩

theorem lexer_advance_pos {l : Lexer} (h : l.pos < l.input_len) :
    (lexer_advance l).2.pos = l.pos + 1 := by
  simp only [lexer_advance]
  rw [if_neg (by omega : ¬ l.pos ≥ l.input_len)]
  split <;> rfl

theorem lexer_advance_input (l : Lexer) : (lexer_advance l).2.input = l.input :=
  (lexer_advance_cursorStep l).1

theorem lexer_advance_input_len (l : Lexer) : (lexer_advance l).2.input_len = l.input_len :=
  (lexer_advance_cursorStep l).2.1

theorem lexer_advance_current (l : Lexer) :
    (lexer_advance l).2.current_token = l.current_token :=
  (lexer_advance_cursorStep l).2.2.1

theorem lexer_peek_eq {l : Lexer} (h : l.pos < l.input_len) :
    lexer_peek l = charAt l l.pos := by
  unfold lexer_peek
  rw [if_neg (by omega)]

theorem skip_ws_loop_cursorStep : ∀ fuel l, CursorStep l (lexer_skip_whitespace_loop fuel l)
  | 0, l => cursorStep_refl l
  | fuel + 1, l => by
    unfold lexer_skip_whitespace_loop
    split
    · exact cursorStep_trans (lexer_advance_cursorStep l) (skip_ws_loop_cursorStep fuel _)
    · exact cursorStep_refl l

theorem lexer_skip_whitespace_cursorStep (l : Lexer) :
    CursorStep l (lexer_skip_whitespace l) :=
  skip_ws_loop_cursorStep _ l

theorem skip_line_loop_cursorStep : ∀ fuel l, CursorStep l (skip_line_comment_loop fuel l)
  | 0, l => cursorStep_refl l
  | fuel + 1, l => by
    unfold skip_line_comment_loop
    split
    · exact cursorStep_trans (lexer_advance_cursorStep l) (skip_line_loop_cursorStep fuel _)
    · exact cursorStep_refl l

theorem skip_block_loop_cursorStep : ∀ fuel l, CursorStep l (skip_block_comment_loop fuel l)
  | 0, l => cursorStep_refl l
  | fuel + 1, l => by
    unfold skip_block_comment_loop
    split
    · split
      · exact cursorStep_trans (lexer_advance_cursorStep l)
          (lexer_advance_cursorStep (lexer_advance l).2)
      · exact cursorStep_trans (lexer_advance_cursorStep l)
          (skip_block_loop_cursorStep fuel _)
    · exact cursorStep_refl l

theorem lexer_skip_comment_cursorStep (l : Lexer) : CursorStep l (lexer_skip_comment l) := by
  simp only [lexer_skip_comment]
  split
  · exact cursorStep_trans (lexer_advance_cursorStep l)
      (cursorStep_trans (lexer_advance_cursorStep _) (skip_line_loop_cursorStep _ _))
  · split
    · exact cursorStep_trans (lexer_advance_cursorStep l)
        (cursorStep_trans (lexer_advance_cursorStep _) (skip_block_loop_cursorStep _ _))
    · exact cursorStep_refl l

theorem next_token_skip_loop_cursorStep : ∀ fuel l, CursorStep l (next_token_skip_loop fuel l)
  | 0, l => cursorStep_refl l
  | fuel + 1, l => by
    simp only [next_token_skip_loop]
    split
    · split
      · exact lexer_skip_whitespace_cursorStep l
      · split
        · exact cursorStep_trans (lexer_skip_whitespace_cursorStep l)
            (cursorStep_trans (lexer_skip_comment_cursorStep _)
              (next_token_skip_loop_cursorStep fuel _))
        · exact lexer_skip_whitespace_cursorStep l
    · exact cursorStep_refl l

theorem skip_digits_loop_cursorStep : ∀ fuel l, CursorStep l (skip_digits_loop fuel l)
  | 0, l => cursorStep_refl l
  | fuel + 1, l => by
    unfold skip_digits_loop
    split
    · exact cursorStep_trans (lexer_advance_cursorStep l) (skip_digits_loop_cursorStep fuel _)
    · exact cursorStep_refl l

theorem skip_digits_cursorStep (l : Lexer) : CursorStep l (skip_digits l) :=
  skip_digits_loop_cursorStep _ l

theorem scan_ident_loop_cursorStep : ∀ fuel l, CursorStep l (scan_ident_loop fuel l)
  | 0, l => cursorStep_refl l
  | fuel + 1, l => by
    unfold scan_ident_loop
    split
    · exact cursorStep_trans (lexer_advance_cursorStep l) (scan_ident_loop_cursorStep fuel _)
    · exact cursorStep_refl l

theorem getD_eq_getElem {xs : List Char} {i : Nat} (h : i < xs.length) (d : Char) :
    xs.getD i d = xs[i] := by
  rw [List.getD_eq_getElem?_getD, List.getElem?_eq_getElem h, Option.getD_some]

theorem sliceList_nil (xs : List Char) (i : Nat) : sliceList xs i 0 = [] := rfl

theorem sliceList_cons {xs : List Char} {i : Nat} (h : i < xs.length) (n : Nat) :
    sliceList xs i (n + 1) = xs.getD i nullChar :: sliceList xs (i + 1) n := by
  unfold sliceList
  rw [List.drop_eq_getElem_cons h, List.take_succ_cons, getD_eq_getElem h]

theorem sliceList_one {xs : List Char} {i : Nat} (h : i < xs.length) :
    sliceList xs i 1 = [xs.getD i nullChar] := by
  rw [sliceList_cons h, sliceList_nil]

theorem sliceList_two {xs : List Char} {i : Nat} (h : i + 1 < xs.length) :
    sliceList xs i 2 = [xs.getD i nullChar, xs.getD (i + 1) nullChar] := by
  rw [sliceList_cons (by omega), sliceList_cons h, sliceList_nil]

theorem sliceList_three {xs : List Char} {i : Nat} (h : i + 2 < xs.length) :
    sliceList xs i 3 = [xs.getD i nullChar, xs.getD (i + 1) nullChar,
      xs.getD (i + 2) nullChar] := by
  rw [sliceList_cons (by omega), sliceList_cons (by omega), sliceList_cons h, sliceList_nil]

theorem drop_length_takeWhile (p : Char → Bool) :
    ∀ xs : List Char, xs.drop (xs.takeWhile p).length = xs.dropWhile p
  | [] => rfl
  | c :: cs => by
    by_cases h : p c
    · rw [List.takeWhile_cons_of_pos h, List.dropWhile_cons_of_pos h, List.length_cons,
        List.drop_succ_cons, drop_length_takeWhile p cs]
    · rw [List.takeWhile_cons_of_neg h, List.dropWhile_cons_of_neg h, List.length_nil,
        List.drop_zero]

theorem headD_drop (d : Char) : ∀ (xs : List Char) (n : Nat),
    (xs.drop n).headD d = xs.getD n d
  | [], n => by cases n <;> rfl
  | c :: cs, 0 => rfl
  | c :: cs, n + 1 => by
    rw [List.drop_succ_cons, List.getD_cons_succ, headD_drop d cs n]

theorem tail_drop (xs : List Char) (n : Nat) : (xs.drop n).tail = xs.drop (n + 1) := by
  rw [← List.drop_one, List.drop_drop]

theorem skip_digits_loop_pos : ∀ (fuel : Nat) (l : Lexer),
    l.input_len = l.input.length → l.input_len - l.pos ≤ fuel →
    (skip_digits_loop fuel l).pos =
      l.pos + ((l.input.drop l.pos).takeWhile is_digit).length
  | 0, l, hwf, hfuel => by
    unfold skip_digits_loop
    rw [List.drop_eq_nil_of_le (by omega)]
    rfl
  | fuel + 1, l, hwf, hfuel => by
    unfold skip_digits_loop
    split
    · rename_i hg
      obtain ⟨hlt, hdig⟩ := hg
      have hlen : l.pos < l.input.length := by omega
      have hpeek : lexer_peek l = l.input.getD l.pos nullChar := by
        rw [lexer_peek_eq hlt]; rfl
      have hrec := skip_digits_loop_pos fuel (lexer_advance l).2
        (by rw [lexer_advance_input, lexer_advance_input_len]; exact hwf)
        (by rw [lexer_advance_input_len, lexer_advance_pos hlt]; omega)
      rw [hrec, lexer_advance_input, lexer_advance_pos hlt]
      rw [List.drop_eq_getElem_cons hlen, List.takeWhile_cons_of_pos
        (by rw [← getD_eq_getElem hlen nullChar, ← hpeek]; exact hdig)]
      simp only [List.length_cons]
      omega
    · rename_i hg
      by_cases hlt : l.pos < l.input_len
      · have hdig : ¬ is_digit (lexer_peek l) = true := fun h => hg ⟨hlt, h⟩
        have hlen : l.pos < l.input.length := by omega
        rw [List.drop_eq_getElem_cons hlen, List.takeWhile_cons_of_neg
          (by rw [lexer_peek_eq hlt] at hdig; exact fun h => hdig (by
            rw [show charAt l l.pos = l.input.getD l.pos nullChar from rfl,
              getD_eq_getElem hlen]; exact h))]
        rfl
      · rw [List.drop_eq_nil_of_le (by omega)]
        rfl

theorem skip_digits_pos (l : Lexer) (hwf : l.input_len = l.input.length) :
    (skip_digits l).pos = l.pos + ((l.input.drop l.pos).takeWhile is_digit).length :=
  skip_digits_loop_pos _ l hwf (Nat.le_refl _)

theorem scan_identifier_spec (l : Lexer) (h : (lexer_scan_identifier l).2 = true) :
    (lexer_scan_identifier l).1.input = l.input ∧
    (lexer_scan_identifier l).1.input_len = l.input_len ∧
    (lexer_scan_identifier l).1.current_token.location = l.current_token.location ∧
    (lexer_scan_identifier l).1.current_token.value =
      some (sliceList l.input l.pos (lexer_scan_identifier l).1.current_token.length) ∧
    (lexer_scan_identifier l).1.current_token.type =
      lookup_keyword (sliceList l.input l.pos (lexer_scan_identifier l).1.current_token.length)
        (lexer_scan_identifier l).1.current_token.length := by
  by_cases halpha : is_alpha (lexer_peek l) = false
  · simp only [lexer_scan_identifier, if_pos halpha] at h
    exact absurd h (by decide)
  · simp only [lexer_scan_identifier, if_neg halpha] at h ⊢
    have hstep : CursorStep l (scan_ident_loop
        ((lexer_advance l).2.input_len - (lexer_advance l).2.pos) (lexer_advance l).2) :=
      cursorStep_trans (lexer_advance_cursorStep l) (scan_ident_loop_cursorStep _ _)
    obtain ⟨hi, hn, ht, hc, he, hp⟩ := hstep
    refine ⟨hi, hn, ?_, ?_, ?_⟩
    · simp only [ht]
    · simp only [hi]
    · simp only [hi]

theorem scan_number_finish_spec (l : Lexer) (start : Nat) (hd he : Bool) :
    (lexer_scan_number_finish l start hd he).2 = true ∧
    (lexer_scan_number_finish l start hd he).1.input = l.input ∧
    (lexer_scan_number_finish l start hd he).1.input_len = l.input_len ∧
    (lexer_scan_number_finish l start hd he).1.error_msg = l.error_msg ∧
    (lexer_scan_number_finish l start hd he).1.current_token.location =
      l.current_token.location ∧
    (lexer_scan_number_finish l start hd he).1.current_token.length = l.pos - start ∧
    (lexer_scan_number_finish l start hd he).1.current_token.value =
      some (sliceList l.input start (l.pos - start)) ∧
    (lexer_scan_number_finish l start hd he).1.current_token.type =
      (if hd || he then TOKEN_FCONST else TOKEN_ICONST) ∧
    (lexer_scan_number_finish l start hd he).1.current_token.data =
      (if hd || he then TokenData.fval (strtodQ (sliceList l.input start (l.pos - start)))
       else TokenData.ival (strtoll (sliceList l.input start (l.pos - start)))) := by
  by_cases hcase : (hd || he) = true
  · simp [lexer_scan_number_finish, hcase]
  · simp [lexer_scan_number_finish, hcase]

theorem scan_number_exp_spec (l2 : Lexer) (start : Nat) (hd : Bool)
    (h : (lexer_scan_number_exp l2 start hd).2 = true) :
    (lexer_scan_number_exp l2 start hd).1.input = l2.input ∧
    (lexer_scan_number_exp l2 start hd).1.input_len = l2.input_len ∧
    (lexer_scan_number_exp l2 start hd).1.current_token.location =
      l2.current_token.location ∧
    (lexer_scan_number_exp l2 start hd).1.current_token.value =
      some (sliceList l2.input start
        (lexer_scan_number_exp l2 start hd).1.current_token.length) ∧
    (lexer_scan_number_exp l2 start hd).1.current_token.type = TOKEN_FCONST := by
  have main : ∀ (lf : Lexer), CursorStep l2 lf →
      (lexer_scan_number_finish lf start hd true).1.input = l2.input ∧
      (lexer_scan_number_finish lf start hd true).1.input_len = l2.input_len ∧
      (lexer_scan_number_finish lf start hd true).1.current_token.location =
        l2.current_token.location ∧
      (lexer_scan_number_finish lf start hd true).1.current_token.value =
        some (sliceList l2.input start
          (lexer_scan_number_finish lf start hd true).1.current_token.length) ∧
      (lexer_scan_number_finish lf start hd true).1.current_token.type =
        TOKEN_FCONST := by
    intro lf hcs
    obtain ⟨hi, hn, ht, hc, herr, hp⟩ := hcs
    obtain ⟨-, fi, fn, fe, floc, flen, fval, fty, fdata⟩ :=
      scan_number_finish_spec lf start hd true
    refine ⟨fi.trans hi, fn.trans hn, floc.trans (by rw [ht]), ?_, ?_⟩
    · rw [fval, flen, hi]
    · rw [fty]; simp
  simp only [lexer_scan_number_exp] at h ⊢
  by_cases hsign : (lexer_advance l2).2.pos < (lexer_advance l2).2.input_len ∧
      (lexer_peek (lexer_advance l2).2 = '+' ∨ lexer_peek (lexer_advance l2).2 = '-')
  · rw [if_pos hsign] at h ⊢
    split at h
    · exact absurd h Bool.false_ne_true
    · rename_i hfail
      rw [if_neg hfail]
      exact main _ (cursorStep_trans (lexer_advance_cursorStep _)
        (cursorStep_trans (lexer_advance_cursorStep _) (skip_digits_cursorStep _)))
  · rw [if_neg hsign] at h ⊢
    split at h
    · exact absurd h Bool.false_ne_true
    · rename_i hfail
      rw [if_neg hfail]
      exact main _ (cursorStep_trans (lexer_advance_cursorStep _) (skip_digits_cursorStep _))

theorem scan_number_spec (l : Lexer) (h : (lexer_scan_number l).2 = true) :
    (lexer_scan_number l).1.input = l.input ∧
    (lexer_scan_number l).1.input_len = l.input_len ∧
    (lexer_scan_number l).1.current_token.location = l.current_token.location ∧
    (lexer_scan_number l).1.current_token.value =
      some (sliceList l.input l.pos (lexer_scan_number l).1.current_token.length) ∧
    ((lexer_scan_number l).1.current_token.type = TOKEN_ICONST ∨
      (lexer_scan_number l).1.current_token.type = TOKEN_FCONST) := by
  have main : ∀ (lf : Lexer) (hd : Bool), CursorStep l lf →
      (lexer_scan_number_finish lf l.pos hd false).1.input = l.input ∧
      (lexer_scan_number_finish lf l.pos hd false).1.input_len = l.input_len ∧
      (lexer_scan_number_finish lf l.pos hd false).1.current_token.location =
        l.current_token.location ∧
      (lexer_scan_number_finish lf l.pos hd false).1.current_token.value =
        some (sliceList l.input l.pos
          (lexer_scan_number_finish lf l.pos hd false).1.current_token.length) ∧
      ((lexer_scan_number_finish lf l.pos hd false).1.current_token.type = TOKEN_ICONST ∨
        (lexer_scan_number_finish lf l.pos hd false).1.current_token.type =
          TOKEN_FCONST) := by
    intro lf hd hcs
    obtain ⟨hi, hn, ht, hc, herr, hp⟩ := hcs
    obtain ⟨-, fi, fn, fe, floc, flen, fval, fty, fdata⟩ :=
      scan_number_finish_spec lf l.pos hd false
    refine ⟨fi.trans hi, fn.trans hn, floc.trans (by rw [ht]), ?_, ?_⟩
    · rw [fval, flen, hi]
    · rw [fty]; split
      · exact Or.inr rfl
      · exact Or.inl rfl
  have expcase : ∀ (lm : Lexer) (hd : Bool), CursorStep l lm →
      (lexer_scan_number_exp lm l.pos hd).2 = true →
      (lexer_scan_number_exp lm l.pos hd).1.input = l.input ∧
      (lexer_scan_number_exp lm l.pos hd).1.input_len = l.input_len ∧
      (lexer_scan_number_exp lm l.pos hd).1.current_token.location =
        l.current_token.location ∧
      (lexer_scan_number_exp lm l.pos hd).1.current_token.value =
        some (sliceList l.input l.pos
          (lexer_scan_number_exp lm l.pos hd).1.current_token.length) ∧
      ((lexer_scan_number_exp lm l.pos hd).1.current_token.type = TOKEN_ICONST ∨
        (lexer_scan_number_exp lm l.pos hd).1.current_token.type = TOKEN_FCONST) := by
    intro lm hd hcs hok
    obtain ⟨hi, hn, ht, hc, herr, hp⟩ := hcs
    obtain ⟨ei, en, eloc, eval, ety⟩ := scan_number_exp_spec lm l.pos hd hok
    refine ⟨ei.trans hi, en.trans hn, eloc.trans (by rw [ht]), ?_, Or.inr ety⟩
    rw [eval, hi]
  simp only [lexer_scan_number] at h ⊢
  split_ifs at h ⊢
  all_goals
    first
      | (refine expcase _ _ ?_ h
         repeat'
           first
           | exact cursorStep_refl _
           | exact skip_digits_cursorStep _
           | refine cursorStep_trans ?_ (lexer_advance_cursorStep _)
           | refine cursorStep_trans ?_ (skip_digits_cursorStep _))
      | (refine main _ _ ?_
         repeat'
           first
           | exact cursorStep_refl _
           | exact skip_digits_cursorStep _
           | refine cursorStep_trans ?_ (lexer_advance_cursorStep _)
           | refine cursorStep_trans ?_ (skip_digits_cursorStep _))

theorem scan_string_loop_spec : ∀ (fuel : Nat) (quote : Char) (start : Nat) (l : Lexer),
    (lexer_scan_string_loop quote start fuel l).2 = true →
    (lexer_scan_string_loop quote start fuel l).1.input = l.input ∧
    (lexer_scan_string_loop quote start fuel l).1.input_len = l.input_len ∧
    (lexer_scan_string_loop quote start fuel l).1.current_token.location =
      l.current_token.location ∧
    (lexer_scan_string_loop quote start fuel l).1.current_token.type =
      l.current_token.type ∧
    (lexer_scan_string_loop quote start fuel l).1.current_token.value =
      some (sliceList l.input start
        (lexer_scan_string_loop quote start fuel l).1.current_token.length)
  | 0, quote, start, l => by
    intro h
    exact absurd h Bool.false_ne_true
  | fuel + 1, quote, start, l => by
    intro h
    have step : ∀ lm : Lexer, CursorStep l lm →
        (lexer_scan_string_loop quote start fuel lm).2 = true →
        (lexer_scan_string_loop quote start fuel lm).1.input = l.input ∧
        (lexer_scan_string_loop quote start fuel lm).1.input_len = l.input_len ∧
        (lexer_scan_string_loop quote start fuel lm).1.current_token.location =
          l.current_token.location ∧
        (lexer_scan_string_loop quote start fuel lm).1.current_token.type =
          l.current_token.type ∧
        (lexer_scan_string_loop quote start fuel lm).1.current_token.value =
          some (sliceList l.input start
            (lexer_scan_string_loop quote start fuel lm).1.current_token.length) := by
      intro lm hcs hok
      obtain ⟨si, sn, sloc, sty, sval⟩ := scan_string_loop_spec fuel quote start lm hok
      obtain ⟨ai, an, at', ac, ae, ap⟩ := hcs
      exact ⟨si.trans ai, sn.trans an, sloc.trans (by rw [at']),
        sty.trans (by rw [at']), by rw [sval, ai]⟩
    simp only [lexer_scan_string_loop] at h ⊢
    split_ifs at h ⊢
    all_goals
      first
        | exact absurd h Bool.false_ne_true
        | exact step _ (cursorStep_trans (lexer_advance_cursorStep _)
            (lexer_advance_cursorStep _)) h
        | exact step _ (lexer_advance_cursorStep _) h
        | (refine ⟨lexer_advance_input _, lexer_advance_input_len _, ?_, ?_, ?_⟩ <;>
             rw [lexer_advance_current])

theorem scan_string_spec (l : Lexer) (hlt : l.pos < l.input_len)
    (h : (lexer_scan_string l).2 = true) :
    (lexer_scan_string l).1.input = l.input ∧
    (lexer_scan_string l).1.input_len = l.input_len ∧
    (lexer_scan_string l).1.current_token.location = l.current_token.location ∧
    (lexer_scan_string l).1.current_token.type = l.current_token.type ∧
    (lexer_scan_string l).1.current_token.value =
      some (sliceList l.input (l.pos + 1)
        (lexer_scan_string l).1.current_token.length) := by
  simp only [lexer_scan_string] at h ⊢
  obtain ⟨ai, an, at', ac, ae, ap⟩ := lexer_advance_cursorStep l
  have hpos : (lexer_advance l).2.pos = l.pos + 1 := lexer_advance_pos hlt
  obtain ⟨si, sn, sloc, sty, sval⟩ := scan_string_loop_spec _ _ _ _ h
  refine ⟨si.trans ai, sn.trans an, sloc.trans (by rw [at']),
    sty.trans (by rw [at']), ?_⟩
  rw [sval, ai, hpos]

theorem skip_digits_input (l : Lexer) : (skip_digits l).input = l.input :=
  (skip_digits_cursorStep l).1

theorem skip_digits_input_len (l : Lexer) : (skip_digits l).input_len = l.input_len :=
  (skip_digits_cursorStep l).2.1

theorem skip_digits_current (l : Lexer) :
    (skip_digits l).current_token = l.current_token :=
  (skip_digits_cursorStep l).2.2.1

theorem charAt_advance (l : Lexer) (i : Nat) :
    charAt (lexer_advance l).2 i = charAt l i := by
  unfold charAt
  rw [lexer_advance_input]

theorem op_spec_close {r : Lexer × Bool} {l : Lexer} {ty : TokenType}
    (hs : r.1.input = l.input ∧ r.1.input_len = l.input_len ∧
      r.1.current_token.location = l.current_token.location ∧
      r.1.current_token.value = some (sliceList l.input l.pos r.1.current_token.length) ∧
      r.1.current_token.type = ty)
    (h1 : ty ≠ TOKEN_EOF) (h2 : ty ≠ TOKEN_SCONST) :
    r.1.input = l.input ∧ r.1.input_len = l.input_len ∧
      r.1.current_token.location = l.current_token.location ∧
      r.1.current_token.value = some (sliceList l.input l.pos r.1.current_token.length) ∧
      r.1.current_token.type ≠ TOKEN_EOF ∧ r.1.current_token.type ≠ TOKEN_SCONST :=
  ⟨hs.1, hs.2.1, hs.2.2.1, hs.2.2.2.1,
    by rw [hs.2.2.2.2]; exact h1, by rw [hs.2.2.2.2]; exact h2⟩

theorem op_tok1_spec (l : Lexer) (hwf : l.input_len = l.input.length)
    (hlt : l.pos < l.input_len) (ty : TokenType) :
    (op_tok1 (lexer_advance l).2 (lexer_peek l) ty).1.input = l.input ∧
    (op_tok1 (lexer_advance l).2 (lexer_peek l) ty).1.input_len = l.input_len ∧
    (op_tok1 (lexer_advance l).2 (lexer_peek l) ty).1.current_token.location =
      l.current_token.location ∧
    (op_tok1 (lexer_advance l).2 (lexer_peek l) ty).1.current_token.value =
      some (sliceList l.input l.pos
        (op_tok1 (lexer_advance l).2 (lexer_peek l) ty).1.current_token.length) ∧
    (op_tok1 (lexer_advance l).2 (lexer_peek l) ty).1.current_token.type = ty := by
  unfold op_tok1
  refine ⟨lexer_advance_input _, lexer_advance_input_len _, ?_, ?_, rfl⟩
  · show (lexer_advance l).2.current_token.location = l.current_token.location
    rw [lexer_advance_current]
  · show some [lexer_peek l] = some (sliceList l.input l.pos 1)
    rw [sliceList_one (show l.pos < l.input.length by omega), lexer_peek_eq hlt]
    rfl

theorem op_tok2_spec (l : Lexer) (hwf : l.input_len = l.input.length)
    (hlt : l.pos < l.input_len) (hin : l.pos + 1 < l.input_len) (ty : TokenType)
    (x : Char) (hx : charAt l (l.pos + 1) = x) :
    (op_tok2 (lexer_advance l).2 (lexer_peek l) ty x).1.input = l.input ∧
    (op_tok2 (lexer_advance l).2 (lexer_peek l) ty x).1.input_len = l.input_len ∧
    (op_tok2 (lexer_advance l).2 (lexer_peek l) ty x).1.current_token.location =
      l.current_token.location ∧
    (op_tok2 (lexer_advance l).2 (lexer_peek l) ty x).1.current_token.value =
      some (sliceList l.input l.pos
        (op_tok2 (lexer_advance l).2 (lexer_peek l) ty x).1.current_token.length) ∧
    (op_tok2 (lexer_advance l).2 (lexer_peek l) ty x).1.current_token.type = ty := by
  unfold op_tok2
  refine ⟨?_, ?_, ?_, ?_, rfl⟩
  · show (lexer_advance (lexer_advance l).2).2.input = l.input
    rw [lexer_advance_input, lexer_advance_input]
  · show (lexer_advance (lexer_advance l).2).2.input_len = l.input_len
    rw [lexer_advance_input_len, lexer_advance_input_len]
  · show (lexer_advance l).2.current_token.location = l.current_token.location
    rw [lexer_advance_current]
  · show some [lexer_peek l, x] = some (sliceList l.input l.pos 2)
    rw [sliceList_two (show l.pos + 1 < l.input.length by omega), lexer_peek_eq hlt, ← hx]
    rfl

theorem op_tok3_spec (l : Lexer) (hwf : l.input_len = l.input.length)
    (hlt : l.pos < l.input_len) (ty : TokenType) (x y : Char)
    (hx : charAt l (l.pos + 1) = x)
    (hg : (lexer_advance l).2.pos + 1 < (lexer_advance l).2.input_len ∧
      charAt (lexer_advance l).2 ((lexer_advance l).2.pos + 1) = y) :
    (op_tok3 (lexer_advance l).2 (lexer_peek l) ty x y).1.input = l.input ∧
    (op_tok3 (lexer_advance l).2 (lexer_peek l) ty x y).1.input_len = l.input_len ∧
    (op_tok3 (lexer_advance l).2 (lexer_peek l) ty x y).1.current_token.location =
      l.current_token.location ∧
    (op_tok3 (lexer_advance l).2 (lexer_peek l) ty x y).1.current_token.value =
      some (sliceList l.input l.pos
        (op_tok3 (lexer_advance l).2 (lexer_peek l) ty x y).1.current_token.length) ∧
    (op_tok3 (lexer_advance l).2 (lexer_peek l) ty x y).1.current_token.type = ty := by
  have hpos1 : (lexer_advance l).2.pos = l.pos + 1 := lexer_advance_pos hlt
  have hb : l.pos + 2 < l.input_len := by
    have h1 := hg.1
    rw [hpos1, lexer_advance_input_len] at h1
    omega
  have hy : charAt l (l.pos + 2) = y := by
    have h2 := hg.2
    rw [charAt_advance, hpos1] at h2
    exact h2
  unfold op_tok3
  refine ⟨?_, ?_, ?_, ?_, rfl⟩
  · show (lexer_advance (lexer_advance (lexer_advance l).2).2).2.input = l.input
    rw [lexer_advance_input, lexer_advance_input, lexer_advance_input]
  · show (lexer_advance (lexer_advance (lexer_advance l).2).2).2.input_len = l.input_len
    rw [lexer_advance_input_len, lexer_advance_input_len, lexer_advance_input_len]
  · show (lexer_advance l).2.current_token.location = l.current_token.location
    rw [lexer_advance_current]
  · show some [lexer_peek l, x, y] = some (sliceList l.input l.pos 3)
    rw [sliceList_three (show l.pos + 2 < l.input.length by omega), lexer_peek_eq hlt,
      ← hx, ← hy]
    rfl

theorem op_param_spec (l : Lexer) (hwf : l.input_len = l.input.length)
    (hlt : l.pos < l.input_len) (hc : lexer_peek l = '$') :
    (op_param (lexer_advance l).2).1.input = l.input ∧
    (op_param (lexer_advance l).2).1.input_len = l.input_len ∧
    (op_param (lexer_advance l).2).1.current_token.location =
      l.current_token.location ∧
    (op_param (lexer_advance l).2).1.current_token.value =
      some (sliceList l.input l.pos
        (op_param (lexer_advance l).2).1.current_token.length) ∧
    (op_param (lexer_advance l).2).1.current_token.type = TOKEN_PARAM := by
  unfold op_param
  refine ⟨?_, ?_, ?_, ?_, rfl⟩
  · show (skip_digits (lexer_advance l).2).input = l.input
    rw [skip_digits_input, lexer_advance_input]
  · show (skip_digits (lexer_advance l).2).input_len = l.input_len
    rw [skip_digits_input_len, lexer_advance_input_len]
  · show (skip_digits (lexer_advance l).2).current_token.location =
      l.current_token.location
    rw [skip_digits_current, lexer_advance_current]
  · show some ('$' :: sliceList (skip_digits (lexer_advance l).2).input
        (lexer_advance l).2.pos
        ((skip_digits (lexer_advance l).2).pos - (lexer_advance l).2.pos + 1 - 1)) =
      some (sliceList l.input l.pos
        ((skip_digits (lexer_advance l).2).pos - (lexer_advance l).2.pos + 1))
    rw [sliceList_cons (show l.pos < l.input.length by omega), Nat.add_sub_cancel,
      skip_digits_input, lexer_advance_input, lexer_advance_pos hlt, ← hc,
      lexer_peek_eq hlt]
    rfl

set_option maxHeartbeats 1000000 in
theorem scan_operator_opSpec (l : Lexer) (hwf : l.input_len = l.input.length)
    (hlt : l.pos < l.input_len) : OpSpec l (lexer_scan_operator l) := by
  simp only [lexer_scan_operator]
  by_cases hin : l.pos + 1 < l.input_len
  · rw [if_pos hin]
    by_cases hc1 : lexer_peek l = '('
    · rw [if_pos hc1]
      exact fun hok => op_spec_close (op_tok1_spec l hwf hlt _) (by decide) (by decide)
    rw [if_neg hc1]
    by_cases hc2 : lexer_peek l = ')'
    · rw [if_pos hc2]
      exact fun hok => op_spec_close (op_tok1_spec l hwf hlt _) (by decide) (by decide)
    rw [if_neg hc2]
    by_cases hc3 : lexer_peek l = '['
    · rw [if_pos hc3]
      exact fun hok => op_spec_close (op_tok1_spec l hwf hlt _) (by decide) (by decide)
    rw [if_neg hc3]
    by_cases hc4 : lexer_peek l = ']'
    · rw [if_pos hc4]
      exact fun hok => op_spec_close (op_tok1_spec l hwf hlt _) (by decide) (by decide)
    rw [if_neg hc4]
    by_cases hc5 : lexer_peek l = lbraceChar
    · rw [if_pos hc5]
      exact fun hok => op_spec_close (op_tok1_spec l hwf hlt _) (by decide) (by decide)
    rw [if_neg hc5]
    by_cases hc6 : lexer_peek l = rbraceChar
    · rw [if_pos hc6]
      exact fun hok => op_spec_close (op_tok1_spec l hwf hlt _) (by decide) (by decide)
    rw [if_neg hc6]
    by_cases hc7 : lexer_peek l = ','
    · rw [if_pos hc7]
      exact fun hok => op_spec_close (op_tok1_spec l hwf hlt _) (by decide) (by decide)
    rw [if_neg hc7]
    by_cases hc8 : lexer_peek l = ';'
    · rw [if_pos hc8]
      exact fun hok => op_spec_close (op_tok1_spec l hwf hlt _) (by decide) (by decide)
    rw [if_neg hc8]
    by_cases hc9 : lexer_peek l = '.'
    · rw [if_pos hc9]
      exact fun hok => op_spec_close (op_tok1_spec l hwf hlt _) (by decide) (by decide)
    rw [if_neg hc9]
    by_cases hc10 : lexer_peek l = '+'
    · rw [if_pos hc10]
      exact fun hok => op_spec_close (op_tok1_spec l hwf hlt _) (by decide) (by decide)
    rw [if_neg hc10]
    by_cases hc11 : lexer_peek l = '-'
    · rw [if_pos hc11]
      by_cases ha11 : charAt l (l.pos + 1) = '>'
      · rw [if_pos ha11]
        by_cases hb11 : (lexer_advance l).2.pos + 1 < (lexer_advance l).2.input_len ∧
            charAt (lexer_advance l).2 ((lexer_advance l).2.pos + 1) = '>'
        · rw [if_pos hb11]
          exact fun hok => op_spec_close (op_tok3_spec l hwf hlt _ _ _ ha11 hb11) (by decide) (by decide)
        · rw [if_neg hb11]
          exact fun hok => op_spec_close (op_tok2_spec l hwf hlt hin _ _ ha11) (by decide) (by decide)
      · rw [if_neg ha11]
        exact fun hok => op_spec_close (op_tok1_spec l hwf hlt _) (by decide) (by decide)
    rw [if_neg hc11]
    by_cases hc12 : lexer_peek l = '*'
    · rw [if_pos hc12]
      exact fun hok => op_spec_close (op_tok1_spec l hwf hlt _) (by decide) (by decide)
    rw [if_neg hc12]
    by_cases hc13 : lexer_peek l = '/'
    · rw [if_pos hc13]
      exact fun hok => op_spec_close (op_tok1_spec l hwf hlt _) (by decide) (by decide)
    rw [if_neg hc13]
    by_cases hc14 : lexer_peek l = '%'
    · rw [if_pos hc14]
      exact fun hok => op_spec_close (op_tok1_spec l hwf hlt _) (by decide) (by decide)
    rw [if_neg hc14]
    by_cases hc15 : lexer_peek l = '^'
    · rw [if_pos hc15]
      exact fun hok => op_spec_close (op_tok1_spec l hwf hlt _) (by decide) (by decide)
    rw [if_neg hc15]
    by_cases hc16 : lexer_peek l = '<'
    · rw [if_pos hc16]
      by_cases ha16 : charAt l (l.pos + 1) = '='
      · rw [if_pos ha16]
        exact fun hok => op_spec_close (op_tok2_spec l hwf hlt hin _ _ ha16) (by decide) (by decide)
      rw [if_neg ha16]
      by_cases hb16 : charAt l (l.pos + 1) = '>'
      · rw [if_pos hb16]
        exact fun hok => op_spec_close (op_tok2_spec l hwf hlt hin _ _ hb16) (by decide) (by decide)
      rw [if_neg hb16]
      by_cases hd16 : charAt l (l.pos + 1) = '<'
      · rw [if_pos hd16]
        exact fun hok => op_spec_close (op_tok2_spec l hwf hlt hin _ _ hd16) (by decide) (by decide)
      rw [if_neg hd16]
      exact fun hok => op_spec_close (op_tok1_spec l hwf hlt _) (by decide) (by decide)
    rw [if_neg hc16]
    by_cases hc17 : lexer_peek l = '>'
    · rw [if_pos hc17]
      by_cases ha17 : charAt l (l.pos + 1) = '='
      · rw [if_pos ha17]
        exact fun hok => op_spec_close (op_tok2_spec l hwf hlt hin _ _ ha17) (by decide) (by decide)
      rw [if_neg ha17]
      by_cases hb17 : charAt l (l.pos + 1) = '>'
      · rw [if_pos hb17]
        exact fun hok => op_spec_close (op_tok2_spec l hwf hlt hin _ _ hb17) (by decide) (by decide)
      rw [if_neg hb17]
      exact fun hok => op_spec_close (op_tok1_spec l hwf hlt _) (by decide) (by decide)
    rw [if_neg hc17]
    by_cases hc18 : lexer_peek l = '='
    · rw [if_pos hc18]
      exact fun hok => op_spec_close (op_tok1_spec l hwf hlt _) (by decide) (by decide)
    rw [if_neg hc18]
    by_cases hc19 : lexer_peek l = '!'
    · rw [if_pos hc19]
      by_cases ha19 : charAt l (l.pos + 1) = '='
      · rw [if_pos ha19]
        exact fun hok => op_spec_close (op_tok2_spec l hwf hlt hin _ _ ha19) (by decide) (by decide)
      rw [if_neg ha19]
      by_cases hb19 : charAt l (l.pos + 1) = '~'
      · rw [if_pos hb19]
        by_cases hd19 : (lexer_advance l).2.pos + 1 < (lexer_advance l).2.input_len ∧
            charAt (lexer_advance l).2 ((lexer_advance l).2.pos + 1) = '*'
        · rw [if_pos hd19]
          exact fun hok => op_spec_close (op_tok3_spec l hwf hlt _ _ _ hb19 hd19) (by decide) (by decide)
        · rw [if_neg hd19]
          exact fun hok => op_spec_close (op_tok2_spec l hwf hlt hin _ _ hb19) (by decide) (by decide)
      rw [if_neg hb19]
      exact fun hok => absurd hok Bool.false_ne_true
    rw [if_neg hc19]
    by_cases hc20 : lexer_peek l = '|'
    · rw [if_pos hc20]
      by_cases ha20 : charAt l (l.pos + 1) = '|'
      · rw [if_pos ha20]
        exact fun hok => op_spec_close (op_tok2_spec l hwf hlt hin _ _ ha20) (by decide) (by decide)
      rw [if_neg ha20]
      exact fun hok => op_spec_close (op_tok1_spec l hwf hlt _) (by decide) (by decide)
    rw [if_neg hc20]
    by_cases hc21 : lexer_peek l = '&'
    · rw [if_pos hc21]
      exact fun hok => op_spec_close (op_tok1_spec l hwf hlt _) (by decide) (by decide)
    rw [if_neg hc21]
    by_cases hc22 : lexer_peek l = '#'
    · rw [if_pos hc22]
      by_cases ha22 : charAt l (l.pos + 1) = '>'
      · rw [if_pos ha22]
        by_cases hb22 : (lexer_advance l).2.pos + 1 < (lexer_advance l).2.input_len ∧
            charAt (lexer_advance l).2 ((lexer_advance l).2.pos + 1) = '>'
        · rw [if_pos hb22]
          exact fun hok => op_spec_close (op_tok3_spec l hwf hlt _ _ _ ha22 hb22) (by decide) (by decide)
        · rw [if_neg hb22]
          exact fun hok => op_spec_close (op_tok2_spec l hwf hlt hin _ _ ha22) (by decide) (by decide)
      rw [if_neg ha22]
      exact fun hok => op_spec_close (op_tok1_spec l hwf hlt _) (by decide) (by decide)
    rw [if_neg hc22]
    by_cases hc23 : lexer_peek l = '~'
    · rw [if_pos hc23]
      by_cases ha23 : charAt l (l.pos + 1) = '*'
      · rw [if_pos ha23]
        exact fun hok => op_spec_close (op_tok2_spec l hwf hlt hin _ _ ha23) (by decide) (by decide)
      rw [if_neg ha23]
      exact fun hok => op_spec_close (op_tok1_spec l hwf hlt _) (by decide) (by decide)
    rw [if_neg hc23]
    by_cases hc24 : lexer_peek l = ':'
    · rw [if_pos hc24]
      by_cases ha24 : charAt l (l.pos + 1) = ':'
      · rw [if_pos ha24]
        exact fun hok => op_spec_close (op_tok2_spec l hwf hlt hin _ _ ha24) (by decide) (by decide)
      rw [if_neg ha24]
      exact fun hok => op_spec_close (op_tok1_spec l hwf hlt _) (by decide) (by decide)
    rw [if_neg hc24]
    by_cases hc25 : lexer_peek l = '$'
    · rw [if_pos hc25]
      by_cases ha25 : is_digit (charAt l (l.pos + 1)) = true
      · rw [if_pos ha25]
        exact fun hok => op_spec_close (op_param_spec l hwf hlt hc25) (by decide) (by decide)
      rw [if_neg ha25]
      exact fun hok => absurd hok Bool.false_ne_true
    rw [if_neg hc25]
    exact fun hok => absurd hok Bool.false_ne_true
  · rw [if_neg hin]
    by_cases hn1 : lexer_peek l = '('
    · rw [if_pos hn1]
      exact fun hok => op_spec_close (op_tok1_spec l hwf hlt _) (by decide) (by decide)
    rw [if_neg hn1]
    by_cases hn2 : lexer_peek l = ')'
    · rw [if_pos hn2]
      exact fun hok => op_spec_close (op_tok1_spec l hwf hlt _) (by decide) (by decide)
    rw [if_neg hn2]
    by_cases hn3 : lexer_peek l = '['
    · rw [if_pos hn3]
      exact fun hok => op_spec_close (op_tok1_spec l hwf hlt _) (by decide) (by decide)
    rw [if_neg hn3]
    by_cases hn4 : lexer_peek l = ']'
    · rw [if_pos hn4]
      exact fun hok => op_spec_close (op_tok1_spec l hwf hlt _) (by decide) (by decide)
    rw [if_neg hn4]
    by_cases hn5 : lexer_peek l = lbraceChar
    · rw [if_pos hn5]
      exact fun hok => op_spec_close (op_tok1_spec l hwf hlt _) (by decide) (by decide)
    rw [if_neg hn5]
    by_cases hn6 : lexer_peek l = rbraceChar
    · rw [if_pos hn6]
      exact fun hok => op_spec_close (op_tok1_spec l hwf hlt _) (by decide) (by decide)
    rw [if_neg hn6]
    by_cases hn7 : lexer_peek l = ','
    · rw [if_pos hn7]
      exact fun hok => op_spec_close (op_tok1_spec l hwf hlt _) (by decide) (by decide)
    rw [if_neg hn7]
    by_cases hn8 : lexer_peek l = ';'
    · rw [if_pos hn8]
      exact fun hok => op_spec_close (op_tok1_spec l hwf hlt _) (by decide) (by decide)
    rw [if_neg hn8]
    by_cases hn9 : lexer_peek l = '.'
    · rw [if_pos hn9]
      exact fun hok => op_spec_close (op_tok1_spec l hwf hlt _) (by decide) (by decide)
    rw [if_neg hn9]
    by_cases hn10 : lexer_peek l = '+'
    · rw [if_pos hn10]
      exact fun hok => op_spec_close (op_tok1_spec l hwf hlt _) (by decide) (by decide)
    rw [if_neg hn10]
    by_cases hn11 : lexer_peek l = '-'
    · rw [if_pos hn11]
      rw [if_neg (show ¬(nullChar = '>') by decide)]
      exact fun hok => op_spec_close (op_tok1_spec l hwf hlt _) (by decide) (by decide)
    rw [if_neg hn11]
    by_cases hn12 : lexer_peek l = '*'
    · rw [if_pos hn12]
      exact fun hok => op_spec_close (op_tok1_spec l hwf hlt _) (by decide) (by decide)
    rw [if_neg hn12]
    by_cases hn13 : lexer_peek l = '/'
    · rw [if_pos hn13]
      exact fun hok => op_spec_close (op_tok1_spec l hwf hlt _) (by decide) (by decide)
    rw [if_neg hn13]
    by_cases hn14 : lexer_peek l = '%'
    · rw [if_pos hn14]
      exact fun hok => op_spec_close (op_tok1_spec l hwf hlt _) (by decide) (by decide)
    rw [if_neg hn14]
    by_cases hn15 : lexer_peek l = '^'
    · rw [if_pos hn15]
      exact fun hok => op_spec_close (op_tok1_spec l hwf hlt _) (by decide) (by decide)
    rw [if_neg hn15]
    by_cases hn16 : lexer_peek l = '<'
    · rw [if_pos hn16]
      rw [if_neg (show ¬(nullChar = '=') by decide),
        if_neg (show ¬(nullChar = '>') by decide),
        if_neg (show ¬(nullChar = '<') by decide)]
      exact fun hok => op_spec_close (op_tok1_spec l hwf hlt _) (by decide) (by decide)
    rw [if_neg hn16]
    by_cases hn17 : lexer_peek l = '>'
    · rw [if_pos hn17]
      rw [if_neg (show ¬(nullChar = '=') by decide),
        if_neg (show ¬(nullChar = '>') by decide)]
      exact fun hok => op_spec_close (op_tok1_spec l hwf hlt _) (by decide) (by decide)
    rw [if_neg hn17]
    by_cases hn18 : lexer_peek l = '='
    · rw [if_pos hn18]
      exact fun hok => op_spec_close (op_tok1_spec l hwf hlt _) (by decide) (by decide)
    rw [if_neg hn18]
    by_cases hn19 : lexer_peek l = '!'
    · rw [if_pos hn19]
      rw [if_neg (show ¬(nullChar = '=') by decide),
        if_neg (show ¬(nullChar = '~') by decide)]
      exact fun hok => absurd hok Bool.false_ne_true
    rw [if_neg hn19]
    by_cases hn20 : lexer_peek l = '|'
    · rw [if_pos hn20]
      rw [if_neg (show ¬(nullChar = '|') by decide)]
      exact fun hok => op_spec_close (op_tok1_spec l hwf hlt _) (by decide) (by decide)
    rw [if_neg hn20]
    by_cases hn21 : lexer_peek l = '&'
    · rw [if_pos hn21]
      exact fun hok => op_spec_close (op_tok1_spec l hwf hlt _) (by decide) (by decide)
    rw [if_neg hn21]
    by_cases hn22 : lexer_peek l = '#'
    · rw [if_pos hn22]
      rw [if_neg (show ¬(nullChar = '>') by decide)]
      exact fun hok => op_spec_close (op_tok1_spec l hwf hlt _) (by decide) (by decide)
    rw [if_neg hn22]
    by_cases hn23 : lexer_peek l = '~'
    · rw [if_pos hn23]
      rw [if_neg (show ¬(nullChar = '*') by decide)]
      exact fun hok => op_spec_close (op_tok1_spec l hwf hlt _) (by decide) (by decide)
    rw [if_neg hn23]
    by_cases hn24 : lexer_peek l = ':'
    · rw [if_pos hn24]
      rw [if_neg (show ¬(nullChar = ':') by decide)]
      exact fun hok => op_spec_close (op_tok1_spec l hwf hlt _) (by decide) (by decide)
    rw [if_neg hn24]
    by_cases hn25 : lexer_peek l = '$'
    · rw [if_pos hn25]
      rw [if_neg (show ¬(is_digit nullChar = true) by decide)]
      exact fun hok => absurd hok Bool.false_ne_true
    rw [if_neg hn25]
    exact fun hok => absurd hok Bool.false_ne_true

theorem scan_operator_spec (l : Lexer) (hwf : l.input_len = l.input.length)
    (hlt : l.pos < l.input_len) (h : (lexer_scan_operator l).2 = true) :
    (lexer_scan_operator l).1.input = l.input ∧
    (lexer_scan_operator l).1.input_len = l.input_len ∧
    (lexer_scan_operator l).1.current_token.location = l.current_token.location ∧
    (lexer_scan_operator l).1.current_token.value =
      some (sliceList l.input l.pos (lexer_scan_operator l).1.current_token.length) ∧
    (lexer_scan_operator l).1.current_token.type ≠ TOKEN_EOF ∧
    (lexer_scan_operator l).1.current_token.type ≠ TOKEN_SCONST :=
  scan_operator_opSpec l hwf hlt h

theorem lookup_keyword_loop_result : ∀ (fuel : Nat) (str : List Char) (len : Nat)
    (left right : Int),
    lookup_keyword_loop str len fuel left right = TOKEN_IDENT ∨
      ∃ p ∈ keywords, lookup_keyword_loop str len fuel left right = p.2
  | 0, _, _, _, _ => Or.inl rfl
  | fuel + 1, str, len, left, right => by
    simp only [lookup_keyword_loop]
    split
    · split
      · rename_i hfound
        by_cases hmid : ((left + right) / 2).toNat < keywords.length
        · refine Or.inr ⟨keywords.getD ((left + right) / 2).toNat ([], TOKEN_IDENT), ?_, rfl⟩
          rw [List.getD_eq_getElem?_getD, List.getElem?_eq_getElem hmid, Option.getD_some]
          exact List.getElem_mem hmid
        · left
          rw [List.getD_eq_getElem?_getD, List.getElem?_eq_none (by omega),
            Option.getD_none]
      · split
        · exact lookup_keyword_loop_result fuel str len left _
        · exact lookup_keyword_loop_result fuel str len _ right
    · exact Or.inl rfl

set_option maxRecDepth 20000 in
theorem lookup_keyword_ne (str : List Char) (len : Nat) :
    lookup_keyword str len ≠ TOKEN_EOF ∧ lookup_keyword str len ≠ TOKEN_SCONST := by
  have htab : ∀ p ∈ keywords, p.2 ≠ TOKEN_EOF ∧ p.2 ≠ TOKEN_SCONST := by decide
  rcases lookup_keyword_loop_result keywords.length str len 0 (num_keywords - 1) with
    h | ⟨p, hp, h⟩
  · unfold lookup_keyword
    rw [h]
    exact ⟨by decide, by decide⟩
  · unfold lookup_keyword
    rw [h]
    exact htab p hp

theorem next_token_skip_loop_at_end : ∀ (fuel : Nat) (l : Lexer),
    l.input_len ≤ l.pos → next_token_skip_loop fuel l = l
  | 0, l, _ => rfl
  | fuel + 1, l, hend => by
    simp only [next_token_skip_loop]
    rw [if_neg (by omega)]

theorem next_token_has_current (l : Lexer) :
    (lexer_next_token l).1.has_current = (lexer_next_token l).2 := by
  simp only [lexer_next_token]
  repeat' split
  all_goals rfl

theorem lexer_next_token_free_input (l : Lexer) :
    (lexer_next_token_free l).input = l.input := by
  unfold lexer_next_token_free
  split <;> rfl

theorem lexer_next_token_free_input_len (l : Lexer) :
    (lexer_next_token_free l).input_len = l.input_len := by
  unfold lexer_next_token_free
  split <;> rfl

theorem lexer_next_token_free_pos (l : Lexer) :
    (lexer_next_token_free l).pos = l.pos := by
  unfold lexer_next_token_free
  split <;> rfl

theorem lexer_next_token_free_error (l : Lexer) :
    (lexer_next_token_free l).error_msg = l.error_msg := by
  unfold lexer_next_token_free
  split <;> rfl

theorem lexer_dispatch_spec (lc : Lexer) (hwf : lc.input_len = lc.input.length)
    (hlt : lc.pos < lc.input_len) (hok : (lexer_dispatch lc).2 = true) :
    (lexer_dispatch lc).1.input = lc.input ∧
    (lexer_dispatch lc).1.input_len = lc.input_len ∧
    (lexer_dispatch lc).1.current_token.location = lc.current_token.location ∧
    (lexer_dispatch lc).1.current_token.type ≠ TOKEN_EOF ∧
    ((lexer_dispatch lc).1.current_token.type = TOKEN_SCONST →
      (lexer_dispatch lc).1.current_token.value =
        some (sliceList lc.input (lc.pos + 1)
          (lexer_dispatch lc).1.current_token.length)) ∧
    ((lexer_dispatch lc).1.current_token.type ≠ TOKEN_SCONST →
      (lexer_dispatch lc).1.current_token.value =
        some (sliceList lc.input lc.pos
          (lexer_dispatch lc).1.current_token.length)) := by
  revert hok
  simp only [lexer_dispatch]
  split_ifs with hq hdg ha
  · intro hok
    obtain ⟨si, sn, sloc, sty, sval⟩ :=
      scan_string_spec { lc with current_token :=
        { lc.current_token with type := TOKEN_SCONST } } hlt hok
    dsimp only at si sn sloc sty sval
    exact ⟨si, sn, sloc, by rw [sty]; decide, fun _ => sval, fun hne => absurd sty hne⟩
  · intro hok
    obtain ⟨ni, nn, nloc, nval, nty⟩ := scan_number_spec _ hok
    rcases nty with nty | nty
    · exact ⟨ni, nn, nloc, by rw [nty]; decide,
        fun heq => absurd heq (by rw [nty]; decide), fun _ => nval⟩
    · exact ⟨ni, nn, nloc, by rw [nty]; decide,
        fun heq => absurd heq (by rw [nty]; decide), fun _ => nval⟩
  · intro hok
    obtain ⟨ii, inn, iloc, ival, ity⟩ := scan_identifier_spec _ hok
    refine ⟨ii, inn, iloc, ?_, ?_, fun _ => ival⟩
    · rw [ity]
      exact (lookup_keyword_ne _ _).1
    · intro heq
      rw [ity] at heq
      exact absurd heq (lookup_keyword_ne _ _).2
  · intro hok
    obtain ⟨oi, onn, oloc, oval, oty1, oty2⟩ := scan_operator_spec _ hwf hlt hok
    exact ⟨oi, onn, oloc, oty1, fun heq => absurd heq oty2, fun _ => oval⟩

theorem lexer_next_token_at_end (l : Lexer) (hend : l.input_len ≤ l.pos) :
    (lexer_next_token l).2 = true ∧
    (lexer_next_token l).1.current_token.type = TOKEN_EOF ∧
    (lexer_next_token l).1.pos = l.pos ∧
    (lexer_next_token l).1.input_len = l.input_len ∧
    (lexer_next_token l).1.error_msg = l.error_msg := by
  simp only [lexer_next_token]
  rw [lexer_next_token_free_input_len, lexer_next_token_free_pos,
    Nat.sub_eq_zero_of_le hend]
  simp only [next_token_skip_loop]
  rw [lexer_next_token_free_pos, lexer_next_token_free_input_len,
    if_pos (show l.pos ≥ l.input_len from hend)]
  exact ⟨rfl, rfl, rfl, rfl, lexer_next_token_free_error l⟩

theorem lexer_next_token_spec (l : Lexer) (hwf : l.input_len = l.input.length)
    (hok : (lexer_next_token l).2 = true) :
    (lexer_next_token l).1.input = l.input ∧
    (lexer_next_token l).1.input_len = l.input_len ∧
    ((lexer_next_token l).1.current_token.type = TOKEN_EOF →
      (lexer_next_token l).1.input_len ≤ (lexer_next_token l).1.pos) ∧
    ((lexer_next_token l).1.current_token.type ≠ TOKEN_EOF →
      (lexer_next_token l).1.current_token.value =
        some (sliceList (lexer_next_token l).1.input
          ((lexer_next_token l).1.current_token.location.offset +
            (if (lexer_next_token l).1.current_token.type = TOKEN_SCONST then 1
             else 0))
          (lexer_next_token l).1.current_token.length)) := by
  revert hok
  simp only [lexer_next_token]
  split
  · rename_i hend
    intro _
    obtain ⟨bi, bn, bt, bc, be, bp⟩ := next_token_skip_loop_cursorStep
      ((lexer_next_token_free l).input_len - (lexer_next_token_free l).pos)
      (lexer_next_token_free l)
    refine ⟨?_, ?_, fun _ => hend, fun hne => absurd rfl hne⟩
    · show (next_token_skip_loop
          ((lexer_next_token_free l).input_len - (lexer_next_token_free l).pos)
          (lexer_next_token_free l)).input = l.input
      rw [bi, lexer_next_token_free_input]
    · show (next_token_skip_loop
          ((lexer_next_token_free l).input_len - (lexer_next_token_free l).pos)
          (lexer_next_token_free l)).input_len = l.input_len
      rw [bn, lexer_next_token_free_input_len]
  · rename_i hend
    intro hok
    set lb := next_token_skip_loop
      ((lexer_next_token_free l).input_len - (lexer_next_token_free l).pos)
      (lexer_next_token_free l) with hlb
    obtain ⟨bi, bn, bt, bc, be, bp⟩ := next_token_skip_loop_cursorStep
      ((lexer_next_token_free l).input_len - (lexer_next_token_free l).pos)
      (lexer_next_token_free l)
    rw [← hlb] at bi bn
    have hin : lb.input = l.input := by rw [bi, lexer_next_token_free_input]
    have hlen : lb.input_len = l.input_len := by rw [bn, lexer_next_token_free_input_len]
    set lc : Lexer := { lb with current_token := { lb.current_token with
      location := { line := lb.line, column := lb.column, offset := lb.pos } } }
      with hlc
    have hok2 : (lexer_dispatch lc).2 = true := hok
    have hlcpos : lc.pos = lb.pos := by rw [hlc]
    have hlcin : lc.input = lb.input := by rw [hlc]
    have hlclen : lc.input_len = lb.input_len := by rw [hlc]
    have hwf2 : lc.input_len = lc.input.length := by rw [hlclen, hlcin, hlen, hin, hwf]
    have hlt2 : lc.pos < lc.input_len := by omega
    obtain ⟨di, dn, dloc, dty, dvs, dvn⟩ := lexer_dispatch_spec lc hwf2 hlt2 hok2
    have hofs : (lexer_dispatch lc).1.current_token.location.offset = lb.pos := by
      rw [dloc, hlc]
    refine ⟨?_, ?_, fun heof => absurd heof dty, fun hne => ?_⟩
    · show (lexer_dispatch lc).1.input = l.input
      rw [di, hlcin, hin]
    · show (lexer_dispatch lc).1.input_len = l.input_len
      rw [dn, hlclen, hlen]
    · by_cases hsc : (lexer_dispatch lc).1.current_token.type = TOKEN_SCONST
      · show (lexer_dispatch lc).1.current_token.value =
          some (sliceList (lexer_dispatch lc).1.input
            ((lexer_dispatch lc).1.current_token.location.offset +
              (if (lexer_dispatch lc).1.current_token.type = TOKEN_SCONST then 1
               else 0))
            (lexer_dispatch lc).1.current_token.length)
        rw [if_pos hsc, dvs hsc, di, hlcin, hofs, hlcpos]
      · show (lexer_dispatch lc).1.current_token.value =
          some (sliceList (lexer_dispatch lc).1.input
            ((lexer_dispatch lc).1.current_token.location.offset +
              (if (lexer_dispatch lc).1.current_token.type = TOKEN_SCONST then 1
               else 0))
            (lexer_dispatch lc).1.current_token.length)
        rw [if_neg hsc, dvn hsc, di, hlcin, hofs, hlcpos, Nat.add_zero]

/-- Claim C1, counterexample: the claim as stated fails for string tokens.  On
the input consisting of a quoted two-character string, the first token is
produced successfully and is not the end-of-input token, yet its value is not
the source substring of length token.length starting at location.offset (that
substring starts at the opening quote, while the value is the text between the
quotes). -/
theorem claim1_counterexample :
    (lexer_next_token (lexer_create [squote, 'a', 'b', squote])).2 = true ∧
    (lexer_next_token (lexer_create [squote, 'a', 'b', squote])).1.current_token.type ≠
      TOKEN_EOF ∧
    (lexer_next_token (lexer_create [squote, 'a', 'b', squote])).1.current_token.value ≠
      some (sliceList [squote, 'a', 'b', squote]
        (lexer_next_token
          (lexer_create [squote, 'a', 'b', squote])).1.current_token.location.offset
        (lexer_next_token
          (lexer_create [squote, 'a', 'b', squote])).1.current_token.length) := by
  decide

/-- Claim C1 (amended): for every lexer state over a well-formed buffer and
every token produced by lexer_next_token other than the end-of-input token,
the token's value equals the source substring of length token.length starting
at location.offset for every non-string token, and starting at
location.offset + 1 (one past the opening quote) for string tokens. -/
theorem claim1_rawText_source_slice (l : Lexer) (hwf : l.input_len = l.input.length)
    (hok : (lexer_next_token l).2 = true)
    (hne : (lexer_next_token l).1.current_token.type ≠ TOKEN_EOF) :
    (lexer_next_token l).1.current_token.value =
      some (sliceList (lexer_next_token l).1.input
        ((lexer_next_token l).1.current_token.location.offset +
          (if (lexer_next_token l).1.current_token.type = TOKEN_SCONST then 1 else 0))
        (lexer_next_token l).1.current_token.length) :=
  (lexer_next_token_spec l hwf hok).2.2.2 hne

/-- Witness for claim C1 at the concrete input consisting of a quoted
two-character string. -/
theorem claim1_rawText_source_slice_witness :
    (lexer_next_token (lexer_create [squote, 'a', 'b', squote])).2 = true ∧
    (lexer_next_token (lexer_create [squote, 'a', 'b', squote])).1.current_token.value =
      some (sliceList (lexer_next_token (lexer_create [squote, 'a', 'b', squote])).1.input
        ((lexer_next_token
            (lexer_create [squote, 'a', 'b', squote])).1.current_token.location.offset +
          (if (lexer_next_token
              (lexer_create [squote, 'a', 'b', squote])).1.current_token.type =
              TOKEN_SCONST then 1 else 0))
        (lexer_next_token (lexer_create [squote, 'a', 'b', squote])).1.current_token.length) :=
  ⟨by decide, claim1_rawText_source_slice _ rfl (by decide) (by decide)⟩

set_option maxRecDepth 20000 in
/-- Claim C3: the keyword table associates the spelling as with TOKEN_AS, yet
both lookup_keyword and a full scan of the input as yield TOKEN_IDENT: the
binary search moves right whenever the length-bounded comparison returns zero
with a length mismatch, losing keywords that sort before one of their
extensions.  The strict-extension part of the claim holds (andx is an
identifier), and ASCII-case variants are recognized for keywords the search
can reach (select, SELECT, sElEcT). -/
theorem claim3_keyword_lookup_bug :
    (('a' :: 's' :: [], TOKEN_AS) ∈ keywords) ∧
    TOKEN_AS ≠ TOKEN_IDENT ∧
    lookup_keyword ('a' :: 's' :: []) 2 = TOKEN_IDENT ∧
    (lexer_next_token (lexer_create ('a' :: 's' :: []))).2 = true ∧
    (lexer_next_token (lexer_create ('a' :: 's' :: []))).1.current_token.type =
      TOKEN_IDENT ∧
    lookup_keyword ('a' :: 'n' :: 'd' :: 'x' :: []) 4 = TOKEN_IDENT ∧
    lookup_keyword ('s' :: 'e' :: 'l' :: 'e' :: 'c' :: 't' :: []) 6 = TOKEN_SELECT ∧
    lookup_keyword ('S' :: 'E' :: 'L' :: 'E' :: 'C' :: 'T' :: []) 6 = TOKEN_SELECT ∧
    lookup_keyword ('s' :: 'E' :: 'l' :: 'E' :: 'c' :: 'T' :: []) 6 = TOKEN_SELECT := by
  decide

/-- Claim C4, counterexample: scanning a string literal with a doubled
delimiter succeeds, but the token's value is not the claimed escape-resolved
text with a single apostrophe. -/
theorem claim4_counterexample :
    (lexer_next_token
      (lexer_create [squote, 'i', 't', squote, squote, 's', squote])).2 = true ∧
    (lexer_next_token
      (lexer_create [squote, 'i', 't', squote, squote, 's',
        squote])).1.current_token.value ≠ some ['i', 't', squote, 's'] := by
  decide

/-- Claim C4 (amended): the scanner keeps a doubled delimiter verbatim in the
token value instead of collapsing it: the five-character value contains both
apostrophes. -/
theorem claim4_amended_doubled_quote_kept :
    (lexer_next_token
      (lexer_create [squote, 'i', 't', squote, squote, 's', squote])).2 = true ∧
    (lexer_next_token
      (lexer_create [squote, 'i', 't', squote, squote, 's',
        squote])).1.current_token.type = TOKEN_SCONST ∧
    (lexer_next_token
      (lexer_create [squote, 'i', 't', squote, squote, 's',
        squote])).1.current_token.value = some ['i', 't', squote, squote, 's'] ∧
    (lexer_next_token
      (lexer_create [squote, 'i', 't', squote, squote, 's',
        squote])).1.current_token.length = 5 ∧
    (lexer_next_token
      (lexer_create [squote, 'i', 't', squote, squote, 's', squote])).1.error_msg =
      none := by
  decide

/-- Claim C7: in a string literal a backslash passes both itself and the
following byte through uninterpreted; the scanned value holds the
two-character sequence backslash then n, and contains no newline character. -/
theorem claim7_backslash_verbatim :
    (lexer_next_token (lexer_create
      [squote, 'l', 'i', 'n', 'e', bslash, 'n', 'e', 'n', 'd', squote])).2 = true ∧
    (lexer_next_token (lexer_create
      [squote, 'l', 'i', 'n', 'e', bslash, 'n', 'e', 'n', 'd',
        squote])).1.current_token.type = TOKEN_SCONST ∧
    (lexer_next_token (lexer_create
      [squote, 'l', 'i', 'n', 'e', bslash, 'n', 'e', 'n', 'd',
        squote])).1.current_token.value =
      some ['l', 'i', 'n', 'e', bslash, 'n', 'e', 'n', 'd'] ∧
    (['l', 'i', 'n', 'e', bslash, 'n', 'e', 'n', 'd'].contains '\n') = false := by
  decide

/-- Claim C9: lexer_next_token is idempotent at end of stream: once a call on
a well-formed lexer has succeeded with the end-of-input token, the next call
succeeds, produces the end-of-input token again, and leaves the position
unchanged. -/
theorem claim9_eof_idempotent (l : Lexer) (hwf : l.input_len = l.input.length)
    (hok : (lexer_next_token l).2 = true)
    (heof : (lexer_next_token l).1.current_token.type = TOKEN_EOF) :
    (lexer_next_token (lexer_next_token l).1).2 = true ∧
    (lexer_next_token (lexer_next_token l).1).1.current_token.type = TOKEN_EOF ∧
    (lexer_next_token (lexer_next_token l).1).1.pos = (lexer_next_token l).1.pos := by
  have hend := (lexer_next_token_spec l hwf hok).2.2.1 heof
  obtain ⟨h1, h2, h3, _, _⟩ := lexer_next_token_at_end _ hend
  exact ⟨h1, h2, h3⟩

/-- Witness for claim C9 at the empty input. -/
theorem claim9_eof_idempotent_witness :
    (lexer_next_token (lexer_next_token (lexer_create [])).1).2 = true ∧
    (lexer_next_token (lexer_next_token (lexer_create [])).1).1.current_token.type =
      TOKEN_EOF ∧
    (lexer_next_token (lexer_next_token (lexer_create [])).1).1.pos =
      (lexer_next_token (lexer_create [])).1.pos :=
  claim9_eof_idempotent (lexer_create []) rfl (by decide) (by decide)

/-- Claim C10: lexer_current_token returns a token exactly when the most
recent lexer_next_token call succeeded: it is none on a fresh lexer, some
current token after any successful call, and none after any failed call. -/
theorem claim10_current_token_iff :
    (∀ input : List Char, lexer_current_token (lexer_create input) = none) ∧
    (∀ l : Lexer, (lexer_next_token l).2 = true →
      lexer_current_token (lexer_next_token l).1 =
        some (lexer_next_token l).1.current_token) ∧
    (∀ l : Lexer, (lexer_next_token l).2 = false →
      lexer_current_token (lexer_next_token l).1 = none) := by
  refine ⟨fun input => rfl, fun l hok => ?_, fun l hfail => ?_⟩
  · unfold lexer_current_token
    rw [next_token_has_current, hok]
    rfl
  · unfold lexer_current_token
    rw [next_token_has_current, hfail]
    rfl

/-- Witness for claim C10: a successful call on a one-letter input holds its
token, and a failed call on a lone question mark holds none. -/
theorem claim10_current_token_iff_witness :
    lexer_current_token (lexer_next_token (lexer_create ['a'])).1 =
      some (lexer_next_token (lexer_create ['a'])).1.current_token ∧
    lexer_current_token (lexer_next_token (lexer_create ['?'])).1 = none :=
  ⟨claim10_current_token_iff.2.1 (lexer_create ['a']) (by decide),
    claim10_current_token_iff.2.2 (lexer_create ['?']) (by decide)⟩

set_option maxHeartbeats 1000000 in
/-- Claim C6: greedy operator matching: every input beginning with the three
characters of the JSON-extract-as-text operator yields exactly one token of
that kind with length 3, consuming all three characters, never a JSON-extract
token followed by a separate greater-than token. -/
theorem claim6_json_extract_text_greedy (rest : List Char) :
    (lexer_next_token (lexer_create ('-' :: '>' :: '>' :: rest))).2 = true ∧
    (lexer_next_token (lexer_create
      ('-' :: '>' :: '>' :: rest))).1.current_token.type = TOKEN_JSON_EXTRACT_TEXT ∧
    (lexer_next_token (lexer_create
      ('-' :: '>' :: '>' :: rest))).1.current_token.length = 3 ∧
    (lexer_next_token (lexer_create
      ('-' :: '>' :: '>' :: rest))).1.current_token.value = some ['-', '>', '>'] ∧
    (lexer_next_token (lexer_create ('-' :: '>' :: '>' :: rest))).1.pos = 3 := by
  simp [lexer_next_token, lexer_next_token_free, lexer_create, next_token_skip_loop,
    lexer_skip_whitespace, lexer_skip_whitespace_loop, lexer_peek, charAt,
    lexer_dispatch, lexer_scan_operator, op_tok1, op_tok2, op_tok3, op_param,
    lexer_advance, is_space, is_digit, is_alpha, squote, dquote, nullChar,
    lbraceChar, rbraceChar]

theorem takeWhile_append_of_all {p : Char → Bool} : ∀ (ds rest : List Char),
    (∀ c ∈ ds, p c = true) → p (rest.headD nullChar) = false →
    (ds ++ rest).takeWhile p = ds
  | [], rest, _, hr => by
    cases rest with
    | nil => rfl
    | cons r rs =>
      rw [List.nil_append, List.takeWhile_cons_of_neg (by simpa using hr)]
  | d :: ds', rest, hall, hr => by
    rw [List.cons_append, List.takeWhile_cons_of_pos (hall d (by simp)),
      takeWhile_append_of_all ds' rest (fun c hc => hall c (by simp [hc])) hr]

theorem take_length_takeWhile (p : Char → Bool) : ∀ s : List Char,
    s.take (s.takeWhile p).length = s.takeWhile p
  | [] => rfl
  | c :: cs => by
    by_cases h : p c
    · rw [List.takeWhile_cons_of_pos h, List.length_cons, List.take_succ_cons,
        take_length_takeWhile p cs]
    · rw [List.takeWhile_cons_of_neg h, List.length_nil, List.take_zero]

theorem parseDecDigits_foldl : ∀ (ds : List Char) (acc : Nat),
    (∀ c ∈ ds, is_digit c = true) →
    parseDecDigits ds acc = ds.foldl (fun a c => 10 * a + (c.toNat - 48)) acc
  | [], acc, _ => rfl
  | d :: ds', acc, hall => by
    rw [parseDecDigits, if_pos (hall d (by simp)), List.foldl_cons,
      parseDecDigits_foldl ds' _ (fun c hc => hall c (by simp [hc])),
      Nat.mul_comm]

theorem strtoll_digits (ds : List Char) (hall : ∀ c ∈ ds, is_digit c = true) :
    strtoll ds = (decValue ds : Int) := by
  unfold strtoll decValue
  rw [parseDecDigits_foldl ds 0 hall]

theorem op_param_token (lA : Lexer) (hwf : lA.input_len = lA.input.length) :
    (op_param lA).2 = true ∧
    (op_param lA).1.current_token.type = TOKEN_PARAM ∧
    (op_param lA).1.current_token.length =
      ((lA.input.drop lA.pos).takeWhile is_digit).length + 1 ∧
    (op_param lA).1.current_token.value =
      some ('$' :: (lA.input.drop lA.pos).takeWhile is_digit) ∧
    (op_param lA).1.current_token.data =
      TokenData.ival (strtoll ((lA.input.drop lA.pos).takeWhile is_digit)) ∧
    (op_param lA).1.error_msg = lA.error_msg := by
  have hpos := skip_digits_pos lA hwf
  have hin := skip_digits_input lA
  have herr := (skip_digits_cursorStep lA).2.2.2.2.1
  unfold op_param
  have hlen : (skip_digits lA).pos - lA.pos + 1 - 1 =
      ((lA.input.drop lA.pos).takeWhile is_digit).length := by omega
  refine ⟨rfl, rfl, ?_, ?_, ?_, herr⟩
  · show (skip_digits lA).pos - lA.pos + 1 =
      ((lA.input.drop lA.pos).takeWhile is_digit).length + 1
    omega
  · show some ('$' :: sliceList (skip_digits lA).input lA.pos
        ((skip_digits lA).pos - lA.pos + 1 - 1)) = _
    rw [hlen, hin]
    unfold sliceList
    rw [take_length_takeWhile]
  · show TokenData.ival (strtoll (sliceList (skip_digits lA).input lA.pos
        ((skip_digits lA).pos - lA.pos + 1 - 1))) = _
    rw [hlen, hin]
    unfold sliceList
    rw [take_length_takeWhile]

set_option maxHeartbeats 1000000 in
/-- Claim C8: scanning a dollar sign followed by a maximal digit run yields a
parameter-marker token whose integer value is the decimal parse of the digits,
whose value buffer is the dollar sign followed by the digits and whose length
counts them all; a dollar sign followed by a non-digit or end of input fails
with the invalid-parameter-marker error. -/
theorem claim8_param_marker :
    (∀ ds rest : List Char, ds ≠ [] → (∀ c ∈ ds, is_digit c = true) →
      is_digit (rest.headD nullChar) = false →
      (lexer_next_token (lexer_create ('$' :: ds ++ rest))).2 = true ∧
      (lexer_next_token (lexer_create
        ('$' :: ds ++ rest))).1.current_token.type = TOKEN_PARAM ∧
      (lexer_next_token (lexer_create
        ('$' :: ds ++ rest))).1.current_token.value = some ('$' :: ds) ∧
      (lexer_next_token (lexer_create
        ('$' :: ds ++ rest))).1.current_token.length = ds.length + 1 ∧
      (lexer_next_token (lexer_create
        ('$' :: ds ++ rest))).1.current_token.data =
        TokenData.ival (decValue ds)) ∧
    (∀ rest : List Char, is_digit (rest.headD nullChar) = false →
      (lexer_next_token (lexer_create ('$' :: rest))).2 = false ∧
      (lexer_next_token (lexer_create ('$' :: rest))).1.error_msg =
        some "invalid parameter marker") := by
  constructor
  · rintro ⟨⟩ rest hne hall hrest
    · exact absurd rfl hne
    rename_i d ds'
    have hd : is_digit d = true := hall d (by simp)
    simp only [List.cons_append]
    simp +decide [lexer_next_token, lexer_next_token_free, lexer_create,
      next_token_skip_loop, lexer_skip_whitespace, lexer_skip_whitespace_loop,
      lexer_peek, charAt, lexer_dispatch, lexer_scan_operator, lexer_advance, hd]
    refine ⟨rfl, rfl, ?_, ?_, ?_⟩
    · refine ((op_param_token _ ?_).2.2.2.1).trans ?_
      · simp
      · simp only [List.drop_succ_cons, List.drop_zero]
        rw [show d :: (ds' ++ rest) = (d :: ds') ++ rest from rfl,
          takeWhile_append_of_all _ _ hall hrest]
    · refine ((op_param_token _ ?_).2.2.1).trans ?_
      · simp
      · simp only [List.drop_succ_cons, List.drop_zero]
        rw [show d :: (ds' ++ rest) = (d :: ds') ++ rest from rfl,
          takeWhile_append_of_all _ _ hall hrest]
        simp
    · refine ((op_param_token _ ?_).2.2.2.2.1).trans ?_
      · simp
      · simp only [List.drop_succ_cons, List.drop_zero]
        rw [show d :: (ds' ++ rest) = (d :: ds') ++ rest from rfl,
          takeWhile_append_of_all _ _ hall hrest, strtoll_digits _ hall]
  · intro rest hrest
    cases rest with
    | nil => decide
    | cons r rs =>
      have hr : is_digit r = false := by simpa using hrest
      simp +decide [lexer_next_token, lexer_next_token_free, lexer_create,
        next_token_skip_loop, lexer_skip_whitespace, lexer_skip_whitespace_loop,
        lexer_peek, charAt, lexer_dispatch, lexer_scan_operator, lexer_advance,
        lexer_set_error, hr]

/-- Witness for claim C8 at the inputs dollar-one-two and dollar-a. -/
theorem claim8_param_marker_witness :
    ((lexer_next_token (lexer_create ('$' :: ('1' :: '2' :: []) ++ []))).2 = true ∧
      (lexer_next_token (lexer_create
        ('$' :: ('1' :: '2' :: []) ++ []))).1.current_token.type = TOKEN_PARAM ∧
      (lexer_next_token (lexer_create
        ('$' :: ('1' :: '2' :: []) ++ []))).1.current_token.value =
        some ('$' :: '1' :: '2' :: []) ∧
      (lexer_next_token (lexer_create
        ('$' :: ('1' :: '2' :: []) ++ []))).1.current_token.length =
        ('1' :: '2' :: []).length + 1 ∧
      (lexer_next_token (lexer_create
        ('$' :: ('1' :: '2' :: []) ++ []))).1.current_token.data =
        TokenData.ival (decValue ('1' :: '2' :: []))) ∧
    ((lexer_next_token (lexer_create ('$' :: 'a' :: []))).2 = false ∧
      (lexer_next_token (lexer_create ('$' :: 'a' :: []))).1.error_msg =
        some "invalid parameter marker") :=
  ⟨claim8_param_marker.1 ('1' :: '2' :: []) [] (by decide) (by decide) (by decide),
    claim8_param_marker.2 ('a' :: []) (by decide)⟩

theorem skip_block_loop_pos : ∀ (fuel : Nat) (l : Lexer),
    l.input_len - l.pos ≤ fuel →
    (∀ i, l.pos ≤ i → i + 1 < l.input_len →
      ¬(charAt l i = '*' ∧ charAt l (i + 1) = '/')) →
    (skip_block_comment_loop fuel l).pos = max l.pos (l.input_len - 1)
  | 0, l, hfuel, _ => by
    unfold skip_block_comment_loop
    omega
  | fuel + 1, l, hfuel, hnc => by
    unfold skip_block_comment_loop
    split
    · rename_i hg
      split
      · rename_i hclose
        have hpos : l.pos < l.input_len := by omega
        rw [lexer_peek_eq hpos] at hclose
        exact absurd hclose (hnc l.pos (Nat.le_refl _) hg)
      · have hpos : l.pos < l.input_len := by omega
        have hadv_pos := lexer_advance_pos hpos
        have hadv_len := lexer_advance_input_len l
        have hrec := skip_block_loop_pos fuel (lexer_advance l).2
          (by rw [hadv_pos, hadv_len]; omega)
          (fun i hi h2 => by
            simp only [charAt_advance]
            rw [hadv_len] at h2
            rw [hadv_pos] at hi
            exact hnc i (by omega) h2)
        rw [hrec, hadv_pos, hadv_len]
        omega
    · rename_i hg
      omega

theorem lexer_skip_whitespace_loop_nop : ∀ (fuel : Nat) (l : Lexer),
    is_space (lexer_peek l) = false → lexer_skip_whitespace_loop fuel l = l
  | 0, _, _ => rfl
  | fuel + 1, l, h => by
    unfold lexer_skip_whitespace_loop
    rw [if_neg (by simp [h])]

theorem lexer_skip_whitespace_nop (l : Lexer) (h : is_space (lexer_peek l) = false) :
    lexer_skip_whitespace l = l :=
  lexer_skip_whitespace_loop_nop _ l h

theorem lexer_skip_comment_unclosed (l : Lexer)
    (hsl : charAt l l.pos = '/') (hst : charAt l (l.pos + 1) = '*')
    (hin : l.pos + 1 < l.input_len)
    (hnc : ∀ i, l.pos + 2 ≤ i → i + 1 < l.input_len →
      ¬(charAt l i = '*' ∧ charAt l (i + 1) = '/')) :
    (lexer_skip_comment l).pos = max (l.pos + 2) (l.input_len - 1) := by
  have hpos : l.pos < l.input_len := by omega
  have hpeek : lexer_peek l = '/' := by rw [lexer_peek_eq hpos]; exact hsl
  unfold lexer_skip_comment
  rw [if_neg (by simp +decide [hpeek]), if_pos ⟨hpeek, hin, hst⟩]
  have h1 := lexer_advance_pos hpos
  have h1l := lexer_advance_input_len l
  have h2 := lexer_advance_pos (l := (lexer_advance l).2) (by rw [h1, h1l]; omega)
  have h2l := lexer_advance_input_len (lexer_advance l).2
  have hres := skip_block_loop_pos (l.input_len - l.pos)
    (lexer_advance (lexer_advance l).2).2
    (by rw [h2, h1, h2l, h1l]; omega)
    (fun i hi hbound => by
      simp only [charAt_advance]
      rw [h2l, h1l] at hbound
      rw [h2, h1] at hi
      exact hnc i hi hbound)
  rw [hres, h2, h1, h2l, h1l]

theorem next_token_skip_loop_comment (fuel : Nat) (l : Lexer)
    (hpos : l.pos < l.input_len)
    (hws : is_space (lexer_peek l) = false)
    (hop : (lexer_peek l = '-' ∧ l.pos + 1 < l.input_len ∧ charAt l (l.pos + 1) = '-')
      ∨ (lexer_peek l = '/' ∧ l.pos + 1 < l.input_len ∧ charAt l (l.pos + 1) = '*')) :
    next_token_skip_loop (fuel + 1) l =
      next_token_skip_loop fuel (lexer_skip_comment l) := by
  simp only [next_token_skip_loop]
  rw [lexer_skip_whitespace_nop l hws, if_pos hpos, if_neg (by omega : ¬ l.pos ≥ l.input_len),
    if_pos hop]

set_option maxRecDepth 4000 in
/-- Claim C2 (counterexample): the input slash-star-a-b holds a block-comment
opener with no closing star-slash, yet the next call of lexer_next_token does
not produce the end-of-input token: the final byte b is left unconsumed and is
scanned as the identifier b. -/
theorem claim2_counterexample :
    (∀ i < 3, ¬(charAt (lexer_create ['/', '*', 'a', 'b']) i = '*' ∧
      charAt (lexer_create ['/', '*', 'a', 'b']) (i + 1) = '/')) ∧
    charAt (lexer_create ['/', '*', 'a', 'b']) 0 = '/' ∧
    charAt (lexer_create ['/', '*', 'a', 'b']) 1 = '*' ∧
    (lexer_next_token (lexer_create ['/', '*', 'a', 'b'])).2 = true ∧
    (lexer_next_token (lexer_create ['/', '*', 'a', 'b'])).1.current_token.type =
      TOKEN_IDENT ∧
    (lexer_next_token (lexer_create ['/', '*', 'a', 'b'])).1.current_token.type ≠
      TOKEN_EOF ∧
    (lexer_next_token (lexer_create ['/', '*', 'a', 'b'])).1.current_token.value =
      some ['b'] ∧
    (lexer_next_token (lexer_create ['/', '*', 'a', 'b'])).1.error_msg = none := by
  decide

/-- Claim C2 (amended): on a block-comment opener with no closing star-slash
in the rest of the input, lexer_skip_comment stops at position
max (pos + 2) (input_len - 1) — one byte short of the end whenever any byte
follows the opener — with the input and the error state untouched, so no error
is ever raised; and only in the degenerate case where the opener ends the
input does the next lexer_next_token call return the end-of-input token with
the error state still untouched. -/
theorem claim2_block_comment_unclosed (l : Lexer)
    (hsl : charAt l l.pos = '/') (hst : charAt l (l.pos + 1) = '*')
    (hin : l.pos + 1 < l.input_len)
    (hnc : ∀ i, l.pos + 2 ≤ i → i + 1 < l.input_len →
      ¬(charAt l i = '*' ∧ charAt l (i + 1) = '/')) :
    (lexer_skip_comment l).pos = max (l.pos + 2) (l.input_len - 1) ∧
    (lexer_skip_comment l).error_msg = l.error_msg ∧
    (lexer_skip_comment l).input = l.input ∧
    (l.input_len ≤ l.pos + 2 →
      (lexer_next_token l).2 = true ∧
      (lexer_next_token l).1.current_token.type = TOKEN_EOF ∧
      (lexer_next_token l).1.error_msg = l.error_msg) := by
  refine ⟨lexer_skip_comment_unclosed l hsl hst hin hnc,
    (lexer_skip_comment_cursorStep l).2.2.2.2.1,
    (lexer_skip_comment_cursorStep l).1, ?_⟩
  intro hle
  have hlen : l.input_len = l.pos + 2 := by omega
  have hfr_in := lexer_next_token_free_input l
  have hfr_len := lexer_next_token_free_input_len l
  have hfr_pos := lexer_next_token_free_pos l
  have hfr_err := lexer_next_token_free_error l
  have hchar : ∀ i, charAt (lexer_next_token_free l) i = charAt l i := fun i => by
    unfold charAt
    rw [hfr_in]
  have hpos : (lexer_next_token_free l).pos < (lexer_next_token_free l).input_len := by
    rw [hfr_pos, hfr_len]
    omega
  have hpeek : lexer_peek (lexer_next_token_free l) = '/' := by
    rw [lexer_peek_eq hpos, hchar, hfr_pos]
    exact hsl
  have hsc := lexer_skip_comment_unclosed (lexer_next_token_free l)
    (by rw [hchar, hfr_pos]; exact hsl)
    (by rw [hchar, hfr_pos]; exact hst)
    (by rw [hfr_pos, hfr_len]; omega)
    (fun i hi h2 => by
      rw [hfr_len] at h2
      rw [hfr_pos] at hi
      exact absurd h2 (by omega))
  have hsc_pos : (lexer_skip_comment (lexer_next_token_free l)).pos = l.pos + 2 := by
    rw [hsc, hfr_pos, hfr_len]
    omega
  have hsc_len : (lexer_skip_comment (lexer_next_token_free l)).input_len = l.input_len := by
    rw [(lexer_skip_comment_cursorStep _).2.1, hfr_len]
  have hsc_err : (lexer_skip_comment (lexer_next_token_free l)).error_msg = l.error_msg := by
    rw [(lexer_skip_comment_cursorStep _).2.2.2.2.1, hfr_err]
  have hskip : next_token_skip_loop
      ((lexer_next_token_free l).input_len - (lexer_next_token_free l).pos)
      (lexer_next_token_free l) = lexer_skip_comment (lexer_next_token_free l) := by
    rw [hfr_len, hfr_pos, hlen, show l.pos + 2 - l.pos = 1 + 1 from by omega]
    rw [next_token_skip_loop_comment 1 _ hpos (by rw [hpeek]; decide)
      (Or.inr ⟨hpeek, by rw [hfr_pos, hfr_len]; omega, by rw [hchar, hfr_pos]; exact hst⟩)]
    exact next_token_skip_loop_at_end 1 _ (by rw [hsc_pos, hsc_len, hlen])
  have hge : (lexer_skip_comment (lexer_next_token_free l)).pos ≥
      (lexer_skip_comment (lexer_next_token_free l)).input_len := by
    rw [hsc_pos, hsc_len, hlen]
  simp only [lexer_next_token]
  rw [hskip, if_pos hge]
  refine ⟨rfl, rfl, ?_⟩
  exact hsc_err

/-- Witness for claim C2: on the two-byte input slash-star the comment opener
ends the input, the skip stops at position two and the next token is the
end-of-input token with no error set. -/
theorem claim2_block_comment_unclosed_witness :
    (lexer_skip_comment (lexer_create ['/', '*'])).pos = 2 ∧
    (lexer_next_token (lexer_create ['/', '*'])).2 = true ∧
    (lexer_next_token (lexer_create ['/', '*'])).1.current_token.type = TOKEN_EOF ∧
    (lexer_next_token (lexer_create ['/', '*'])).1.error_msg = none := by
  have h := claim2_block_comment_unclosed (lexer_create ['/', '*'])
    (by decide) (by decide) (by decide)
    (fun i hi h2 => absurd h2 (by simp [lexer_create] at hi h2; omega))
  obtain ⟨hp, _, _, hrest⟩ := h
  obtain ⟨h1, h2, h3⟩ := hrest (by decide)
  exact ⟨hp.trans (by decide), h1, h2, h3⟩

theorem charAt_headD (l : Lexer) (i : Nat) :
    charAt l i = (l.input.drop i).headD nullChar := by
  rw [headD_drop]
  rfl

theorem lexer_peek_headD (l : Lexer) (hwf : l.input_len = l.input.length) :
    lexer_peek l = (l.input.drop l.pos).headD nullChar := by
  unfold lexer_peek
  split
  · rename_i h
    rw [List.drop_eq_nil_of_le (by omega)]
    rfl
  · exact charAt_headD l l.pos

theorem lt_length_iff_drop (xs : List Char) (i : Nat) :
    i < xs.length ↔ xs.drop i ≠ [] := by
  constructor
  · intro h hnil
    have hl := congrArg List.length hnil
    rw [List.length_drop] at hl
    simp only [List.length_nil] at hl
    omega
  · intro h
    by_contra hge
    exact h (List.drop_eq_nil_of_le (by omega))

theorem numExpNoDigit_of_no_marker (s0 : List Char) (h : numHasExpMarker s0 = false) :
    numExpNoDigit s0 = false := by
  unfold numHasExpMarker at h
  unfold numExpNoDigit
  cases hB : numAfterFrac s0 with
  | nil => rfl
  | cons c B =>
    rw [hB] at h
    simp at h
    simp [h]

theorem scan_number_hasDot (l1 : Lexer) (s0 : List Char)
    (hwf1 : l1.input_len = l1.input.length)
    (hdrop : l1.input.drop l1.pos = numAfterInt s0) :
    (decide (l1.pos < l1.input_len) && decide (lexer_peek l1 = '.') &&
      decide (l1.pos + 1 < l1.input_len) &&
      is_digit (charAt l1 (l1.pos + 1))) = numHasFrac s0 := by
  unfold numHasFrac
  cases hA : numAfterInt s0 with
  | nil =>
    have hge : l1.input.length ≤ l1.pos := by
      by_contra hlt
      exact (lt_length_iff_drop l1.input l1.pos).mp (by omega) (by rw [hdrop, hA])
    simp [show ¬(l1.pos < l1.input_len) from by rw [hwf1]; omega]
  | cons c A =>
    have hb1 : l1.pos < l1.input_len := by
      rw [hwf1]
      exact (lt_length_iff_drop _ _).mpr (by rw [hdrop, hA]; simp)
    have hpk : lexer_peek l1 = c := by
      rw [lexer_peek_headD l1 hwf1, hdrop, hA]
      rfl
    cases A with
    | nil =>
      have hb2 : ¬(l1.pos + 1 < l1.input_len) := by
        rw [hwf1]
        intro hlt
        exact (lt_length_iff_drop _ _).mp hlt (by rw [← tail_drop, hdrop, hA]; rfl)
      simp [hb1, hb2, hpk]
    | cons d A2 =>
      have hb2 : l1.pos + 1 < l1.input_len := by
        rw [hwf1]
        exact (lt_length_iff_drop _ _).mpr (by rw [← tail_drop, hdrop, hA]; simp)
      have hc1 : charAt l1 (l1.pos + 1) = d := by
        rw [charAt_headD, ← tail_drop, hdrop, hA]
        rfl
      simp [hb1, hb2, hpk, hc1]

theorem scan_number_hasExp (l2 : Lexer) (s0 : List Char)
    (hwf2 : l2.input_len = l2.input.length)
    (hdrop : l2.input.drop l2.pos = numAfterFrac s0) :
    (decide (l2.pos < l2.input_len) &&
      (decide (lexer_peek l2 = 'e') || decide (lexer_peek l2 = 'E'))) =
    numHasExpMarker s0 := by
  unfold numHasExpMarker
  cases hB : numAfterFrac s0 with
  | nil =>
    have hge : l2.input.length ≤ l2.pos := by
      by_contra hlt
      exact (lt_length_iff_drop l2.input l2.pos).mp (by omega) (by rw [hdrop, hB])
    simp [show ¬(l2.pos < l2.input_len) from by rw [hwf2]; omega]
  | cons c B =>
    have hb1 : l2.pos < l2.input_len := by
      rw [hwf2]
      exact (lt_length_iff_drop _ _).mpr (by rw [hdrop, hB]; simp)
    have hpk : lexer_peek l2 = c := by
      rw [lexer_peek_headD l2 hwf2, hdrop, hB]
      rfl
    simp [hb1, hpk]

theorem stage2_drop (l1 : Lexer) (s0 : List Char)
    (hwf1 : l1.input_len = l1.input.length)
    (hdrop : l1.input.drop l1.pos = numAfterInt s0)
    (hfrac : numHasFrac s0 = true) :
    (skip_digits (lexer_advance l1).2).input.drop (skip_digits (lexer_advance l1).2).pos =
      numAfterFrac s0 ∧
    (skip_digits (lexer_advance l1).2).input = l1.input ∧
    (skip_digits (lexer_advance l1).2).input_len = l1.input_len := by
  cases hA : numAfterInt s0 with
  | nil =>
    unfold numHasFrac at hfrac
    rw [hA] at hfrac
    exact absurd hfrac (by decide)
  | cons c A =>
    have hb1 : l1.pos < l1.input_len := by
      rw [hwf1]
      exact (lt_length_iff_drop _ _).mpr (by rw [hdrop, hA]; simp)
    have hadvp : (lexer_advance l1).2.pos = l1.pos + 1 := lexer_advance_pos hb1
    have hai := lexer_advance_input l1
    have hal := lexer_advance_input_len l1
    have hwf2 : (lexer_advance l1).2.input_len = (lexer_advance l1).2.input.length := by
      rw [hai, hal]
      exact hwf1
    have hdropA : l1.input.drop (l1.pos + 1) = A := by
      rw [← tail_drop, hdrop, hA]
      rfl
    refine ⟨?_, (skip_digits_input _).trans hai, (skip_digits_input_len _).trans hal⟩
    rw [skip_digits_input, hai, skip_digits_pos _ hwf2, hadvp, hai, hdropA,
      ← List.drop_drop, hdropA, drop_length_takeWhile]
    unfold numAfterFrac
    rw [hfrac, hA]
    simp

theorem scan_number_exp_characterize (l2 : Lexer) (start : Nat) (hd : Bool)
    (s0 : List Char) (hwf2 : l2.input_len = l2.input.length)
    (hdrop : l2.input.drop l2.pos = numAfterFrac s0)
    (hmk : numHasExpMarker s0 = true) :
    ((lexer_scan_number_exp l2 start hd).2 = false ↔ numExpNoDigit s0 = true) ∧
    ((lexer_scan_number_exp l2 start hd).2 = false →
      (lexer_scan_number_exp l2 start hd).1.error_msg = some "invalid number format") ∧
    ((lexer_scan_number_exp l2 start hd).2 = true →
      (lexer_scan_number_exp l2 start hd).1.current_token.type = TOKEN_FCONST ∧
      (lexer_scan_number_exp l2 start hd).1.current_token.value =
        some (sliceList l2.input start
          (lexer_scan_number_exp l2 start hd).1.current_token.length) ∧
      (lexer_scan_number_exp l2 start hd).1.current_token.data =
        TokenData.fval (strtodQ (sliceList l2.input start
          (lexer_scan_number_exp l2 start hd).1.current_token.length))) := by
  have hfin : ∀ l4 : Lexer, l4.input = l2.input →
      (lexer_scan_number_finish (skip_digits l4) start hd true).2 = true ∧
      ((lexer_scan_number_finish (skip_digits l4) start hd true).1.current_token.type =
          TOKEN_FCONST ∧
        (lexer_scan_number_finish (skip_digits l4) start hd true).1.current_token.value =
          some (sliceList l2.input start
            (lexer_scan_number_finish (skip_digits l4) start
              hd true).1.current_token.length) ∧
        (lexer_scan_number_finish (skip_digits l4) start hd true).1.current_token.data =
          TokenData.fval (strtodQ (sliceList l2.input start
            (lexer_scan_number_finish (skip_digits l4) start
              hd true).1.current_token.length))) := by
    intro l4 h4in
    obtain ⟨ft, fi, fn, fe, floc, flen, fval, fty, fdata⟩ :=
      scan_number_finish_spec (skip_digits l4) start hd true
    have hin : (skip_digits l4).input = l2.input := (skip_digits_input l4).trans h4in
    rw [hin] at fval fdata
    refine ⟨ft, by rw [fty]; simp, ?_, ?_⟩
    · rw [flen]
      exact fval
    · rw [flen, fdata]
      simp
  cases hB : numAfterFrac s0 with
  | nil =>
    simp [numHasExpMarker, hB] at hmk
  | cons c B =>
    have hmkc : (decide (c = 'e') || decide (c = 'E')) = true := by
      simpa [numHasExpMarker, hB] using hmk
    have hb2 : l2.pos < l2.input_len := by
      rw [hwf2]
      exact (lt_length_iff_drop _ _).mpr (by rw [hdrop, hB]; simp)
    have h3p : (lexer_advance l2).2.pos = l2.pos + 1 := lexer_advance_pos hb2
    have h3i := lexer_advance_input l2
    have h3l := lexer_advance_input_len l2
    have h3wf : (lexer_advance l2).2.input_len = (lexer_advance l2).2.input.length := by
      rw [h3i, h3l]
      exact hwf2
    have h3drop : (lexer_advance l2).2.input.drop (lexer_advance l2).2.pos = B := by
      rw [h3i, h3p, ← tail_drop, hdrop, hB]
      rfl
    simp only [lexer_scan_number_exp]
    cases B with
    | nil =>
      have hge : (lexer_advance l2).2.pos ≥ (lexer_advance l2).2.input_len := by
        by_contra hlt
        exact (lt_length_iff_drop ((lexer_advance l2).2.input)
          ((lexer_advance l2).2.pos)).mp (by rw [← h3wf]; omega) h3drop
      rw [if_neg (show ¬((lexer_advance l2).2.pos < (lexer_advance l2).2.input_len ∧
        (lexer_peek (lexer_advance l2).2 = '+' ∨ lexer_peek (lexer_advance l2).2 = '-'))
        from fun hc => absurd hc.1 (by omega))]
      rw [if_pos (Or.inl hge)]
      refine ⟨?_, fun _ => rfl, fun h => absurd h Bool.false_ne_true⟩
      simp [numExpNoDigit, hB, hmkc]
    | cons d B2 =>
      have hb3 : (lexer_advance l2).2.pos < (lexer_advance l2).2.input_len := by
        rw [h3wf]
        exact (lt_length_iff_drop _ _).mpr (by rw [h3drop]; simp)
      have hpk3 : lexer_peek (lexer_advance l2).2 = d := by
        rw [lexer_peek_headD _ h3wf, h3drop]
        rfl
      by_cases hsgn : d = '+' ∨ d = '-'
      · have hsgnB : (decide (d = '+') || decide (d = '-')) = true := by
          rcases hsgn with h | h <;> simp [h]
        rw [if_pos (show (lexer_advance l2).2.pos < (lexer_advance l2).2.input_len ∧
          (lexer_peek (lexer_advance l2).2 = '+' ∨ lexer_peek (lexer_advance l2).2 = '-')
          from ⟨hb3, by rw [hpk3]; exact hsgn⟩)]
        have h4p := lexer_advance_pos hb3
        have h4i := lexer_advance_input (lexer_advance l2).2
        have h4l := lexer_advance_input_len (lexer_advance l2).2
        have h4wf : (lexer_advance (lexer_advance l2).2).2.input_len =
            (lexer_advance (lexer_advance l2).2).2.input.length := by
          rw [h4i, h4l]
          exact h3wf
        have h4drop : (lexer_advance (lexer_advance l2).2).2.input.drop
            (lexer_advance (lexer_advance l2).2).2.pos = B2 := by
          rw [h4i, h4p, ← tail_drop, h3drop]
          rfl
        cases B2 with
        | nil =>
          have hge4 : (lexer_advance (lexer_advance l2).2).2.pos ≥
              (lexer_advance (lexer_advance l2).2).2.input_len := by
            by_contra hlt
            exact (lt_length_iff_drop ((lexer_advance (lexer_advance l2).2).2.input)
              ((lexer_advance (lexer_advance l2).2).2.pos)).mp (by rw [← h4wf]; omega) h4drop
          rw [if_pos (Or.inl hge4)]
          refine ⟨?_, fun _ => rfl, fun h => absurd h Bool.false_ne_true⟩
          simp [numExpNoDigit, hB, hmkc, hsgnB]
        | cons e2 R =>
          have hb4 : (lexer_advance (lexer_advance l2).2).2.pos <
              (lexer_advance (lexer_advance l2).2).2.input_len := by
            rw [h4wf]
            exact (lt_length_iff_drop _ _).mpr (by rw [h4drop]; simp)
          have hpk4 : lexer_peek (lexer_advance (lexer_advance l2).2).2 = e2 := by
            rw [lexer_peek_headD _ h4wf, h4drop]
            rfl
          cases he2 : is_digit e2 with
          | false =>
            rw [if_pos (Or.inr (show is_digit
              (lexer_peek (lexer_advance (lexer_advance l2).2).2) = false
              from by rw [hpk4]; exact he2))]
            refine ⟨?_, fun _ => rfl, fun h => absurd h Bool.false_ne_true⟩
            simp [numExpNoDigit, hB, hmkc, hsgnB, he2]
          | true =>
            rw [if_neg (show ¬((lexer_advance (lexer_advance l2).2).2.pos ≥
              (lexer_advance (lexer_advance l2).2).2.input_len ∨ is_digit
                (lexer_peek (lexer_advance (lexer_advance l2).2).2) = false)
              from fun hor => hor.elim (fun hge => absurd hb4 (by omega))
                (fun hnd => by rw [hpk4, he2] at hnd; exact absurd hnd (by decide)))]
            have hF := hfin (lexer_advance (lexer_advance l2).2).2 (h4i.trans h3i)
            refine ⟨?_, fun hf => absurd (hF.1.symm.trans hf) (by decide), fun _ => hF.2⟩
            rw [hF.1]
            simp [numExpNoDigit, hB, hmkc, hsgnB, he2]
      · rw [if_neg (show ¬((lexer_advance l2).2.pos < (lexer_advance l2).2.input_len ∧
          (lexer_peek (lexer_advance l2).2 = '+' ∨ lexer_peek (lexer_advance l2).2 = '-'))
          from fun hc => hsgn (by rw [← hpk3]; exact hc.2))]
        have hsgnB : (decide (d = '+') || decide (d = '-')) = false := by
          simp only [Bool.or_eq_false_iff, decide_eq_false_iff_not]
          exact ⟨fun h => hsgn (Or.inl h), fun h => hsgn (Or.inr h)⟩
        cases hd2 : is_digit d with
        | false =>
          rw [if_pos (Or.inr (show is_digit (lexer_peek (lexer_advance l2).2) = false
            from by rw [hpk3]; exact hd2))]
          refine ⟨?_, fun _ => rfl, fun h => absurd h Bool.false_ne_true⟩
          simp [numExpNoDigit, hB, hmkc, hsgnB, hd2]
        | true =>
          rw [if_neg (show ¬((lexer_advance l2).2.pos ≥ (lexer_advance l2).2.input_len ∨
            is_digit (lexer_peek (lexer_advance l2).2) = false)
            from fun hor => hor.elim (fun hge => absurd hb3 (by omega))
              (fun hnd => by rw [hpk3, hd2] at hnd; exact absurd hnd (by decide)))]
          have hF := hfin (lexer_advance l2).2 h3i
          refine ⟨?_, fun hf => absurd (hF.1.symm.trans hf) (by decide), fun _ => hF.2⟩
          rw [hF.1]
          simp [numExpNoDigit, hB, hmkc, hsgnB, hd2]

/-- Claim C5: lexer_scan_number fails exactly when an exponent marker e or E
stands after the integer part and the optional fractional part with no digit
after the marker and the optional sign, and then the error is the
invalid-number-format message; on success the token kind is the integer kind
when neither a fractional part nor an exponent marker was consumed and the
floating-point kind otherwise, the value is the consumed source slice, and the
data field holds the decimal parse of that slice (exact integer, or exact
rational for the floating-point kind). -/
theorem claim5_number_scan_characterization (l : Lexer)
    (hwf : l.input_len = l.input.length) :
    ((lexer_scan_number l).2 = false ↔ numExpNoDigit (l.input.drop l.pos) = true) ∧
    ((lexer_scan_number l).2 = false →
      (lexer_scan_number l).1.error_msg = some "invalid number format") ∧
    ((lexer_scan_number l).2 = true →
      (lexer_scan_number l).1.current_token.type =
        (if numHasFrac (l.input.drop l.pos) || numHasExpMarker (l.input.drop l.pos) then
          TOKEN_FCONST else TOKEN_ICONST) ∧
      (lexer_scan_number l).1.current_token.value =
        some (sliceList l.input l.pos (lexer_scan_number l).1.current_token.length) ∧
      (lexer_scan_number l).1.current_token.data =
        (if numHasFrac (l.input.drop l.pos) || numHasExpMarker (l.input.drop l.pos) then
          TokenData.fval (strtodQ (sliceList l.input l.pos
            (lexer_scan_number l).1.current_token.length))
         else TokenData.ival (strtoll (sliceList l.input l.pos
            (lexer_scan_number l).1.current_token.length)))) := by
  have h1in := skip_digits_input l
  have h1len := skip_digits_input_len l
  have h1wf : (skip_digits l).input_len = (skip_digits l).input.length := by
    rw [h1in, h1len]
    exact hwf
  have h1drop : (skip_digits l).input.drop (skip_digits l).pos =
      numAfterInt (l.input.drop l.pos) := by
    rw [h1in, skip_digits_pos l hwf, ← List.drop_drop, drop_length_takeWhile]
    rfl
  simp only [lexer_scan_number]
  rw [scan_number_hasDot (skip_digits l) (l.input.drop l.pos) h1wf h1drop]
  cases hDot : numHasFrac (l.input.drop l.pos) with
  | false =>
    simp only [Bool.false_eq_true, if_false]
    have h2drop : (skip_digits l).input.drop (skip_digits l).pos =
        numAfterFrac (l.input.drop l.pos) := by
      rw [h1drop]
      unfold numAfterFrac
      rw [hDot]
      simp
    rw [scan_number_hasExp (skip_digits l) (l.input.drop l.pos) h1wf h2drop]
    cases hExp : numHasExpMarker (l.input.drop l.pos) with
    | false =>
      simp only [Bool.false_eq_true, if_false]
      obtain ⟨ft, fi, fn, fe, floc, flen, fval, fty, fdata⟩ :=
        scan_number_finish_spec (skip_digits l) l.pos false false
      rw [h1in] at fval fdata
      refine ⟨?_, ?_, fun _ => ⟨?_, ?_, ?_⟩⟩
      · rw [ft, numExpNoDigit_of_no_marker _ hExp]
        simp
      · intro hf
        exact absurd (ft.symm.trans hf) (by decide)
      · rw [fty]
      · rw [flen]
        exact fval
      · rw [flen]
        exact fdata
    | true =>
      simp only [if_true]
      obtain ⟨hiff, herr, hsucc⟩ := scan_number_exp_characterize (skip_digits l) l.pos
        false (l.input.drop l.pos) h1wf h2drop hExp
      refine ⟨hiff, herr, fun hok => ?_⟩
      obtain ⟨hty, hval, hdata⟩ := hsucc hok
      rw [h1in] at hval hdata
      refine ⟨?_, hval, ?_⟩
      · rw [hty]
        simp
      · rw [hdata]
        simp
  | true =>
    simp only [if_true]
    obtain ⟨h2drop0, h2in, h2len⟩ :=
      stage2_drop (skip_digits l) (l.input.drop l.pos) h1wf h1drop hDot
    have h2wf : (skip_digits (lexer_advance (skip_digits l)).2).input_len =
        (skip_digits (lexer_advance (skip_digits l)).2).input.length := by
      rw [h2in, h2len]
      exact h1wf
    rw [scan_number_hasExp (skip_digits (lexer_advance (skip_digits l)).2)
      (l.input.drop l.pos) h2wf h2drop0]
    have hin2 : (skip_digits (lexer_advance (skip_digits l)).2).input = l.input :=
      h2in.trans h1in
    cases hExp : numHasExpMarker (l.input.drop l.pos) with
    | false =>
      simp only [Bool.false_eq_true, if_false]
      obtain ⟨ft, fi, fn, fe, floc, flen, fval, fty, fdata⟩ :=
        scan_number_finish_spec (skip_digits (lexer_advance (skip_digits l)).2) l.pos
          true false
      rw [hin2] at fval fdata
      refine ⟨?_, ?_, fun _ => ⟨?_, ?_, ?_⟩⟩
      · rw [ft, numExpNoDigit_of_no_marker _ hExp]
        simp
      · intro hf
        exact absurd (ft.symm.trans hf) (by decide)
      · rw [fty]
      · rw [flen]
        exact fval
      · rw [flen]
        exact fdata
    | true =>
      simp only [if_true]
      obtain ⟨hiff, herr, hsucc⟩ := scan_number_exp_characterize
        (skip_digits (lexer_advance (skip_digits l)).2) l.pos true
        (l.input.drop l.pos) h2wf h2drop0 hExp
      refine ⟨hiff, herr, fun hok => ?_⟩
      obtain ⟨hty, hval, hdata⟩ := hsucc hok
      rw [hin2] at hval hdata
      refine ⟨?_, hval, ?_⟩
      · rw [hty]
        simp
      · rw [hdata]
        simp

/-- Witness for claim C5: the input 1e fails with the invalid-number-format
error since the exponent marker has no following digit, and the input 123
succeeds as an integer literal with value 123. -/
theorem claim5_number_scan_characterization_witness :
    (lexer_scan_number (lexer_create ['1', 'e'])).2 = false ∧
    (lexer_scan_number (lexer_create ['1', 'e'])).1.error_msg =
      some "invalid number format" ∧
    (lexer_scan_number (lexer_create ['1', '2', '3'])).2 = true ∧
    (lexer_scan_number (lexer_create ['1', '2', '3'])).1.current_token.type =
      TOKEN_ICONST ∧
    (lexer_scan_number (lexer_create ['1', '2', '3'])).1.current_token.data =
      TokenData.ival 123 := by
  have h1 := claim5_number_scan_characterization (lexer_create ['1', 'e']) rfl
  have h2 := claim5_number_scan_characterization (lexer_create ['1', '2', '3']) rfl
  have hfail : (lexer_scan_number (lexer_create ['1', 'e'])).2 = false :=
    h1.1.mpr (by decide)
  have hok : (lexer_scan_number (lexer_create ['1', '2', '3'])).2 = true := by
    cases hcase : (lexer_scan_number (lexer_create ['1', '2', '3'])).2
    · exact absurd (h2.1.mp hcase) (by decide)
    · rfl
  refine ⟨hfail, h1.2.1 hfail, hok, ?_, ?_⟩
  · exact ((h2.2.2 hok).1).trans (by decide)
  · exact ((h2.2.2 hok).2.2).trans (by decide)
